import Mathlib

/-!
# Match Master (src/src/App.jsx): game-engine model

A shallow embedding of the game rules of the `App` component.

* React state variables become the fields of `GameState`.
* Every event handler and every `useEffect` body becomes a function on `GameState`
  that reads the values of the current render and returns the state after the
  queued setters have been applied.
* `Math.random()` is an explicit argument: a rational draw, or a stream
  `Nat → ℚ` whose `k`-th value is the `k`-th draw made by the call.
* `alert(...)` calls and `setTimeout(...)` callbacks are returned as data
  (`Alert`, `Deferred`).
* A JavaScript array read outside the array gives `undefined`; a cell is therefore
  an `Option Symbol` with `none` standing for `undefined`.  Array holes created by a
  write beyond the end are represented as `undefined` cells as well.
-/

namespace MatchGhani

/-- Glyphs that can occupy a board cell: the five entries of `symbols`
(`'⚪'`, `'🔺'`, `'❌'`, `'⭐'`, `'⬜'`) and the bomb marker `'💣'`. -/
inductive Symbol where
  | circle
  | triangle
  | cross
  | star
  | square
  | bomb
  deriving DecidableEq, Repr

/-- A JavaScript value read from the `cards` array: a glyph or `undefined`. -/
abbrev Cell := Option Symbol

/-- Source `const symbols = ['⚪', '🔺', '❌', '⭐', '⬜']`. -/
def symbols : List Symbol :=
  [Symbol.circle, Symbol.triangle, Symbol.cross, Symbol.star, Symbol.square]

def GRID_SIZE : Nat := 8
def TARGET_SCORE : Int := 100
def MAX_MOVES : Int := 7
def TIME_LIMIT : Int := 120

/-- Source `Math.floor(r * n)` used as an array index: `arr[Math.floor(r * n)]`.
A negative index reads `undefined`. -/
def randomPick {α : Type} (arr : List α) (r : ℚ) : Option α :=
  match ⌊r * (arr.length : ℚ)⌋ with
  | Int.ofNat k => arr[k]?
  | Int.negSucc _ => none

/-- Source `getRandomSymbol = () => symbols[Math.floor(Math.random() * symbols.length)]`,
with the value of `Math.random()` passed as `r`. -/
def getRandomSymbol (r : ℚ) : Cell :=
  randomPick symbols r

/-- Source `cards[index]`: array read, `undefined` outside the array. -/
def jsGet (cards : List Cell) (index : Nat) : Cell :=
  cards.getD index none

/-- Source `newCards[index] = v`: array write; a write beyond the end lengthens the array. -/
def jsSet (cards : List Cell) (index : Nat) (v : Cell) : List Cell :=
  if index < cards.length then cards.set index v
  else cards ++ List.replicate (index - cards.length) none ++ [v]

/-- Source `generateRandomCards`: `Array.from({ length: GRID_SIZE * GRID_SIZE }, () => getRandomSymbol())`;
the callback for position `i` consumes draw `i`. -/
def generateRandomCards (rand : Nat → ℚ) : List Cell :=
  (List.range (GRID_SIZE * GRID_SIZE)).map (fun i => getRandomSymbol (rand i))

/-- Values of the `theme` state variable. -/
inductive Theme where
  | white
  | black
  deriving DecidableEq, Repr

/-- One entry of `allLevelResults`: `{ level, score }`. -/
structure LevelResult where
  level : Int
  score : Int
  deriving DecidableEq, Repr

/-- The `useState` variables of `App`.  `bombIndex = none` is `null`. -/
structure GameState where
  theme : Theme
  cards : List Cell
  flippedCards : List Nat
  score : Int
  moves : Int
  sliderValue : Int
  nextLevel : Bool
  level : Int
  starAvailable : Bool
  allLevelResults : List LevelResult
  timer : Int
  bombIndex : Option Nat
  deriving DecidableEq, Repr

/-- Initial values passed to the `useState` calls. -/
def initialState : GameState where
  theme := Theme.white
  cards := []
  flippedCards := []
  score := 0
  moves := 0
  sliderValue := 0
  nextLevel := false
  level := 1
  starAvailable := false
  allLevelResults := []
  timer := TIME_LIMIT
  bombIndex := none

/-- Messages passed to `alert`. -/
inductive Alert where
  | boosterActivated
  | gameOver
  | hint
  | results
  deriving DecidableEq, Repr

/-- Callbacks handed to `setTimeout(..., 1000)` by the match-check effect, with the
values their closure captured. -/
inductive Deferred where
  | resetMatched (cards : List Cell) (flippedCards : List Nat)
  | flipBack
  deriving DecidableEq, Repr

/-- Result of running an effect body: the state after its setters, the alerts shown
and the timeouts scheduled. -/
structure EffectOut where
  state : GameState
  alerts : List Alert
  timeouts : List Deferred
  deriving DecidableEq, Repr

/-- Timer `setInterval` callback:
`if (timer > 0 && score < TARGET_SCORE && moves < MAX_MOVES) setTimer(prev => prev - 1)`. -/
def timerTick (s : GameState) : GameState :=
  if 0 < s.timer ∧ s.score < TARGET_SCORE ∧ s.moves < MAX_MOVES then
    { s with timer := s.timer - 1 }
  else s

/-- Source `toggleTheme`. -/
def toggleTheme (s : GameState) : GameState :=
  { s with theme := if s.theme = Theme.white then Theme.black else Theme.white }

/-- Effect on `[level]`: `setCards(generateRandomCards())`. -/
def boardEffect (s : GameState) (rand : Nat → ℚ) : GameState :=
  { s with cards := generateRandomCards rand }

/-- Source `flipCard(index)`:
`if (flippedCards.length < 5 && !flippedCards.includes(index)) setFlippedCards(prev => [...prev, index])`. -/
def flipCard (s : GameState) (index : Nat) : GameState :=
  if s.flippedCards.length < 5 ∧ index ∉ s.flippedCards then
    { s with flippedCards := s.flippedCards ++ [index] }
  else s

/-- The loop `for (let i = 0; i < GRID_SIZE; i++) newCards[row * GRID_SIZE + i] = getRandomSymbol()`
of `handleBombClick`; iteration `i` consumes draw `i`. -/
def clearRow (cards : List Cell) (row : Nat) (rand : Nat → ℚ) : List Cell :=
  (List.range GRID_SIZE).foldl
    (fun newCards i => jsSet newCards (row * GRID_SIZE + i) (getRandomSymbol (rand i))) cards

/-- The loop `for (let i = 0; i < GRID_SIZE; i++) newCards[i * GRID_SIZE + col] = getRandomSymbol()`
of `handleBombClick`; iteration `i` consumes draw `GRID_SIZE + i`. -/
def clearCol (cards : List Cell) (col : Nat) (rand : Nat → ℚ) : List Cell :=
  (List.range GRID_SIZE).foldl
    (fun newCards i => jsSet newCards (i * GRID_SIZE + col) (getRandomSymbol (rand (GRID_SIZE + i)))) cards

/-- Source `handleBombClick(index)`. -/
def handleBombClick (s : GameState) (index : Nat) (rand : Nat → ℚ) : GameState :=
  let row := index / GRID_SIZE
  let col := index % GRID_SIZE
  let newCards := clearCol (clearRow s.cards row rand) col rand
  { s with cards := newCards, bombIndex := none, flippedCards := [] }

/-- Source `flippedCards.map(index => cards[index])`. -/
def selectedSymbols (cards : List Cell) (flippedCards : List Nat) : List Cell :=
  flippedCards.map (fun index => jsGet cards index)

/-- Source `selectedSymbols.filter(symbol => symbol === selectedSymbols[0]).length`. -/
def matchCount (cards : List Cell) (flippedCards : List Nat) : Nat :=
  ((selectedSymbols cards flippedCards).filter
    (fun symbol => decide (symbol = (selectedSymbols cards flippedCards).getD 0 none))).length

/-- The `matchCount === 4` block of the match-check effect. -/
def boosterStep (s : GameState) (mc : Nat) : GameState :=
  if mc = 4 then
    { s with
      score := s.score + (mc : Int)
      moves := s.moves + 1
      sliderValue := min (s.sliderValue + 20) 100
      starAvailable := true }
  else s

/-- The `matchCount >= 5` block of the match-check effect:
`bombCardIndex = flippedCards[Math.floor(Math.random() * flippedCards.length)]`,
`setCards(prevCards => prevCards.map((card, index) => index === bombCardIndex ? '💣' : card))`,
`setBombIndex(bombCardIndex)`.  `map` skips array holes, which this model does not
tell apart from `undefined` elements: the definition is exact on boards whose picked
cell holds a symbol, and the theorems about it assume that. -/
def bombStep (s : GameState) (mc : Nat) (r : ℚ) : GameState :=
  if 5 ≤ mc then
    let bombCardIndex := randomPick s.flippedCards r
    { s with
      cards := s.cards.mapIdx
        (fun index card => if some index = bombCardIndex then some Symbol.bomb else card)
      bombIndex := bombCardIndex }
  else s

/-- Body of the match-check effect on `[flippedCards, cards]`; `r` is the draw used when
a bomb is placed. -/
def matchEffect (s : GameState) (r : ℚ) : EffectOut :=
  if 3 ≤ s.flippedCards.length then
    let mc := matchCount s.cards s.flippedCards
    if 3 ≤ mc then
      { state := bombStep (boosterStep s mc) mc r
        alerts := if mc = 4 then [Alert.boosterActivated] else []
        timeouts := [Deferred.resetMatched s.cards s.flippedCards] }
    else
      { state := s, alerts := [], timeouts := [Deferred.flipBack] }
  else
    { state := s, alerts := [], timeouts := [] }

/-- The `flippedCards.forEach(index => { newCards[index] = getRandomSymbol() })` loop of
the deferred reset; the draw for the first listed index is `rand k`. -/
def resetCells (newCards : List Cell) (rand : Nat → ℚ) : List Nat → Nat → List Cell
  | [], _ => newCards
  | index :: rest, k => resetCells (jsSet newCards index (getRandomSymbol (rand k))) rand rest (k + 1)

/-- Running a scheduled timeout callback against the state at fire time. -/
def fireDeferred (d : Deferred) (s : GameState) (rand : Nat → ℚ) : GameState :=
  match d with
  | Deferred.resetMatched cards flippedCards =>
    { s with cards := resetCells cards rand flippedCards 0, flippedCards := [] }
  | Deferred.flipBack => { s with flippedCards := [] }

/-- Source `handleStarClick`. -/
def handleStarClick (s : GameState) (rand : Nat → ℚ) : GameState :=
  { s with
    cards := generateRandomCards rand
    starAvailable := false
    flippedCards := []
    score := 0 }

/-- Source `handleNextLevel`. -/
def handleNextLevel (s : GameState) (rand : Nat → ℚ) : GameState :=
  { s with
    allLevelResults := s.allLevelResults ++ [{ level := s.level, score := s.score }]
    level := s.level + 1
    nextLevel := false
    sliderValue := 0
    score := 0
    moves := 0
    timer := TIME_LIMIT
    cards := generateRandomCards rand }

/-- Body of the end-game effect on `[moves, timer, score]`:
`if (score >= TARGET_SCORE || moves >= MAX_MOVES || timer === 0) { alert(...); setNextLevel(true) }`. -/
def endEffect (s : GameState) : EffectOut :=
  if TARGET_SCORE ≤ s.score ∨ MAX_MOVES ≤ s.moves ∨ s.timer = 0 then
    { state := { s with nextLevel := true }, alerts := [Alert.gameOver], timeouts := [] }
  else
    { state := s, alerts := [], timeouts := [] }

/-- Specification wording of `matchCount`: the number of selected indices whose board
symbol equals the board symbol at the first selected index. -/
def matchCountSpec (cards : List Cell) (flippedCards : List Nat) : Nat :=
  match flippedCards with
  | [] => 0
  | first :: _ => flippedCards.countP (fun index => decide (jsGet cards index = jsGet cards first))

/-- The engine together with its environment: the component state, the queue of
scheduled `setTimeout` callbacks (all with the same delay, so first in, first out)
and the alerts shown so far. -/
structure Sys where
  st : GameState
  pending : List Deferred
  alerts : List Alert
  deriving DecidableEq, Repr

/-- State of the application when the component is first rendered. -/
def initialSys : Sys where
  st := initialState
  pending := []
  alerts := []

/-- Events that drive the engine: handler calls, effect runs, timer ticks and
timeout expiries, each with the random draws it consumes. -/
inductive Op where
  | boardEffect (rand : Nat → ℚ)
  | flipCard (index : Nat)
  | handleBombClick (index : Nat) (rand : Nat → ℚ)
  | cellClick (index : Nat) (rand : Nat → ℚ)
  | matchEffect (r : ℚ)
  | timeout (rand : Nat → ℚ)
  | handleStarClick (rand : Nat → ℚ)
  | handleNextLevel (rand : Nat → ℚ)
  | timerTick
  | endEffect
  | toggleTheme
  | handleHint
  | handleShowResults

/-- Apply the output of an effect run to the system. -/
def applyEffect (y : Sys) (out : EffectOut) : Sys where
  st := out.state
  pending := y.pending ++ out.timeouts
  alerts := y.alerts ++ out.alerts

/-- One event.  `cellClick` is the `onClick` of a rendered card:
`if (card === '💣') handleBombClick(index) else flipCard(index)`. -/
def step (y : Sys) : Op → Sys
  | Op.boardEffect rand => { y with st := boardEffect y.st rand }
  | Op.flipCard index => { y with st := flipCard y.st index }
  | Op.handleBombClick index rand => { y with st := handleBombClick y.st index rand }
  | Op.cellClick index rand =>
    if jsGet y.st.cards index = some Symbol.bomb then
      { y with st := handleBombClick y.st index rand }
    else { y with st := flipCard y.st index }
  | Op.matchEffect r => applyEffect y (matchEffect y.st r)
  | Op.timeout rand =>
    match y.pending with
    | [] => y
    | d :: rest => { y with st := fireDeferred d y.st rand, pending := rest }
  | Op.handleStarClick rand => { y with st := handleStarClick y.st rand }
  | Op.handleNextLevel rand => { y with st := handleNextLevel y.st rand }
  | Op.timerTick => { y with st := timerTick y.st }
  | Op.endEffect => applyEffect y (endEffect y.st)
  | Op.toggleTheme => { y with st := toggleTheme y.st }
  | Op.handleHint => { y with alerts := y.alerts ++ [Alert.hint] }
  | Op.handleShowResults => { y with alerts := y.alerts ++ [Alert.results] }

/-- Run a sequence of events from a given system state. -/
def runFrom (y : Sys) (ops : List Op) : Sys :=
  ops.foldl step y

/-- Run a sequence of events from the initial state. -/
def run (ops : List Op) : Sys :=
  runFrom initialSys ops

/-- Selection invariant: at most five indices, pairwise distinct. -/
def SelectionOk (s : GameState) : Prop :=
  s.flippedCards.length ≤ 5 ∧ s.flippedCards.Nodup

/-- A board whose 64 cells all hold `'⚪'`, with the first three cells selected and
every other state variable at its initial value. -/
def threeMatchState : GameState :=
  { initialState with
    cards := List.replicate 64 (some Symbol.circle)
    flippedCards := [0, 1, 2] }

/-- A board whose 64 cells all hold `'⚪'`, with five cells selected. -/
def fiveMatchState : GameState :=
  { initialState with
    cards := List.replicate 64 (some Symbol.circle)
    flippedCards := [3, 1, 2, 0, 7] }

/-- A state in which the move budget is used up and the end check has not run yet. -/
def movesExhaustedState : GameState :=
  { initialState with
    cards := List.replicate 64 (some Symbol.circle)
    moves := 7 }

/-- A state at the end of a level in which a star has been earned and a bomb index is
recorded. -/
def starBombState : GameState :=
  { initialState with
    cards := List.replicate 64 (some Symbol.circle)
    score := 12
    moves := 7
    sliderValue := 100
    nextLevel := true
    starAvailable := true
    bombIndex := some 2 }

/-- Range invariant of the numeric state variables. -/
def RangeOk (s : GameState) : Prop :=
  0 ≤ s.score ∧ 0 ≤ s.moves ∧ 0 ≤ s.timer ∧ s.timer ≤ TIME_LIMIT ∧
  0 ≤ s.sliderValue ∧ s.sliderValue ≤ 100 ∧ 1 ≤ s.level

/-- One round of play on a board of equal symbols: four cards are flipped, the
match-check effect runs, the end check runs, and the scheduled reset fires with draws
that regenerate `'⚪'`. -/
def fourMatchRound : List Op :=
  [Op.flipCard 0, Op.flipCard 1, Op.flipCard 2, Op.flipCard 3,
   Op.matchEffect 0, Op.endEffect, Op.timeout (fun _ => 0)]

/-- Board generation followed by seven rounds of `fourMatchRound`. -/
def sevenMoveRun : List Op :=
  [Op.boardEffect (fun _ => 0)] ++ fourMatchRound ++ fourMatchRound ++ fourMatchRound ++
    fourMatchRound ++ fourMatchRound ++ fourMatchRound ++ fourMatchRound

/-- The run `sevenMoveRun` followed by one more round of `fourMatchRound`. -/
def eightMoveRun : List Op :=
  sevenMoveRun ++ fourMatchRound

/-- A five-card match as the application runs it: board generation, three flips (the
match-check effect runs and schedules a reset), a fourth flip (effect and end check run
again), a fifth flip, the effect run that places the bomb, and the effect run and end
check triggered by the changed board. -/
def bombPlacedRun : List Op :=
  [Op.boardEffect (fun _ => 0),
   Op.flipCard 3, Op.flipCard 1, Op.flipCard 2, Op.matchEffect 0,
   Op.flipCard 0, Op.matchEffect 0, Op.endEffect,
   Op.flipCard 7, Op.matchEffect (1 / 2), Op.matchEffect 0, Op.endEffect]

/-- Expiry of one scheduled timeout whose callback draws `0` throughout. -/
def settle : Op := Op.timeout (fun _ => 0)

/-- Every draw of the stream is a value `Math.random()` can return. -/
def Draws (rand : Nat → ℚ) : Prop :=
  ∀ k, 0 ≤ rand k ∧ rand k < 1

/-- Board invariant: 64 cells, none of them `undefined`. -/
def BoardOk (cards : List Cell) : Prop :=
  cards.length = 64 ∧ ∀ j, j < 64 → ∃ x, jsGet cards j = some x

/-- A scheduled reset captured a well-formed board and in-range indices. -/
def DeferredOk : Deferred → Prop
  | Deferred.resetMatched cards flippedCards => BoardOk cards ∧ ∀ i ∈ flippedCards, i < 64
  | Deferred.flipBack => True

/-- System invariant behind the board invariant. -/
def SysOk (y : Sys) : Prop :=
  BoardOk y.st.cards ∧ (∀ i ∈ y.st.flippedCards, i < 64) ∧ ∀ d ∈ y.pending, DeferredOk d

/-- An event whose indices are board indices and whose draws lie in `[0, 1)`. -/
def OpOk : Op → Prop
  | Op.boardEffect rand => Draws rand
  | Op.flipCard index => index < 64
  | Op.handleBombClick index rand => index < 64 ∧ Draws rand
  | Op.cellClick index rand => index < 64 ∧ Draws rand
  | Op.matchEffect r => 0 ≤ r ∧ r < 1
  | Op.timeout rand => Draws rand
  | Op.handleStarClick rand => Draws rand
  | Op.handleNextLevel rand => Draws rand
  | Op.timerTick => True
  | Op.endEffect => True
  | Op.toggleTheme => True
  | Op.handleHint => True
  | Op.handleShowResults => True

/-- A board whose 64 cells all hold `'⚪'`, with a selection of five indices that lie
outside the board, as `flipCard(70)`, ..., `flipCard(74)` build it. -/
def outOfBoardState : GameState :=
  { initialState with
    cards := List.replicate 64 (some Symbol.circle)
    flippedCards := [70, 71, 72, 73, 74] }

/-! ## Helper lemmas -/

theorem randomPick_mem {α : Type} (arr : List α) (r : ℚ) (h0 : 0 ≤ r) (h1 : r < 1)
    (hne : arr ≠ []) : ∃ x, x ∈ arr ∧ randomPick arr r = some x := by
  have hlen : 0 < arr.length := List.length_pos.mpr hne
  have hpos : (0 : ℚ) < (arr.length : ℚ) := by exact_mod_cast hlen
  have hfl0 : 0 ≤ ⌊r * (arr.length : ℚ)⌋ := Int.floor_nonneg.mpr (mul_nonneg h0 hpos.le)
  have hlt : r * (arr.length : ℚ) < (arr.length : ℚ) := by nlinarith
  have hfl1 : ⌊r * (arr.length : ℚ)⌋ < (arr.length : ℤ) := by
    rw [Int.floor_lt]; exact_mod_cast hlt
  obtain ⟨k, hk⟩ := Int.eq_ofNat_of_zero_le hfl0
  have hk2 : k < arr.length := by
    rw [hk] at hfl1; exact_mod_cast hfl1
  refine ⟨arr[k], List.getElem_mem _, ?_⟩
  unfold randomPick
  rw [hk]
  simp [List.getElem?_eq_getElem hk2]

theorem getRandomSymbol_mem (r : ℚ) (h0 : 0 ≤ r) (h1 : r < 1) :
    ∃ x, x ∈ symbols ∧ getRandomSymbol r = some x :=
  randomPick_mem symbols r h0 h1 (by simp [symbols])

theorem bomb_not_mem_symbols : Symbol.bomb ∉ symbols := by decide

theorem length_jsSet (cards : List Cell) (i : Nat) (v : Cell) :
    (jsSet cards i v).length = max cards.length (i + 1) := by
  unfold jsSet
  split_ifs with h
  · rw [List.length_set]; omega
  · simp only [List.length_append, List.length_replicate, List.length_singleton]; omega

theorem jsGet_jsSet (cards : List Cell) (i : Nat) (v : Cell) (j : Nat) :
    jsGet (jsSet cards i v) j = if j = i then v else jsGet cards j := by
  unfold jsGet jsSet
  simp only [List.getD_eq_getElem?_getD]
  split_ifs with h hji hji
  · subst hji
    simp [List.getElem?_set, h]
  · rw [List.getElem?_set]
    simp [Ne.symm hji]
  · subst hji
    have hlen : (cards ++ List.replicate (j - cards.length) none).length = j := by
      simp only [List.length_append, List.length_replicate]; omega
    rw [List.getElem?_append_right (by omega)]
    simp [hlen]
  · rcases Nat.lt_or_ge j cards.length with hj | hj
    · rw [List.append_assoc, List.getElem?_append_left hj]
    · rw [List.getElem?_eq_none hj]
      rcases Nat.lt_or_ge j i with hj2 | hj2
      · rw [List.getElem?_append_left
          (by simp only [List.length_append, List.length_replicate]; omega)]
        rw [List.getElem?_append_right hj, List.getElem?_replicate]
        split_ifs <;> rfl
      · rw [List.getElem?_eq_none]
        simp only [List.length_append, List.length_replicate, List.length_singleton]; omega

theorem matchCount_le_length (cards : List Cell) (flippedCards : List Nat) :
    matchCount cards flippedCards ≤ flippedCards.length := by
  unfold matchCount
  calc _ ≤ (selectedSymbols cards flippedCards).length := List.length_filter_le _ _
    _ = flippedCards.length := by simp [selectedSymbols]

theorem matchCount_eq_matchCountSpec (cards : List Cell) (flippedCards : List Nat) :
    matchCount cards flippedCards = matchCountSpec cards flippedCards := by
  cases flippedCards with
  | nil => rfl
  | cons first rest =>
    simp only [matchCount, matchCountSpec, selectedSymbols]
    rw [← List.countP_eq_length_filter, List.countP_map]
    rfl

theorem matchCount_pos (cards : List Cell) (flippedCards : List Nat)
    (hne : flippedCards ≠ []) : 1 ≤ matchCount cards flippedCards := by
  cases flippedCards with
  | nil => exact absurd rfl hne
  | cons first rest =>
    rw [matchCount_eq_matchCountSpec]
    simp only [matchCountSpec]
    rw [List.countP_cons_of_pos]
    · omega
    · simp

theorem boosterStep_of_ne (s : GameState) (mc : Nat) (h : mc ≠ 4) : boosterStep s mc = s := by
  unfold boosterStep; rw [if_neg h]

theorem bombStep_of_lt (s : GameState) (mc : Nat) (r : ℚ) (h : mc < 5) : bombStep s mc r = s := by
  unfold bombStep; rw [if_neg (by omega)]

theorem bombStep_sliderValue (s : GameState) (mc : Nat) (r : ℚ) :
    (bombStep s mc r).sliderValue = s.sliderValue := by
  unfold bombStep
  split_ifs <;> rfl

theorem bombStep_starAvailable (s : GameState) (mc : Nat) (r : ℚ) :
    (bombStep s mc r).starAvailable = s.starAvailable := by
  unfold bombStep
  split_ifs <;> rfl

theorem matchEffect_state_of_match (s : GameState) (r : ℚ)
    (h : 3 ≤ matchCount s.cards s.flippedCards) :
    (matchEffect s r).state =
      bombStep (boosterStep s (matchCount s.cards s.flippedCards))
        (matchCount s.cards s.flippedCards) r := by
  have hlen : 3 ≤ s.flippedCards.length := le_trans h (matchCount_le_length _ _)
  simp only [matchEffect, if_pos hlen, if_pos h]

theorem matchEffect_state_of_no_match (s : GameState) (r : ℚ)
    (h : matchCount s.cards s.flippedCards < 3) :
    (matchEffect s r).state = s := by
  simp only [matchEffect, if_neg (Nat.not_le.mpr h)]
  split_ifs <;> rfl

theorem range_grid : List.range GRID_SIZE = [0, 1, 2, 3, 4, 5, 6, 7] := by decide

theorem jsGet_clearRow (cards : List Cell) (row : Nat) (rand : Nat → ℚ) (j : Nat) :
    jsGet (clearRow cards row rand) j =
      if row * 8 ≤ j ∧ j < row * 8 + 8 then getRandomSymbol (rand (j - row * 8))
      else jsGet cards j := by
  unfold clearRow
  rw [range_grid]
  simp only [GRID_SIZE, List.foldl_cons, List.foldl_nil, jsGet_jsSet]
  split_ifs <;>
    first | rfl | omega | exact congrArg (fun k => getRandomSymbol (rand k)) (by omega)

theorem jsGet_clearCol (cards : List Cell) (col : Nat) (rand : Nat → ℚ) (j : Nat) :
    jsGet (clearCol cards col rand) j =
      if col ≤ j ∧ (j - col) % 8 = 0 ∧ (j - col) / 8 < 8 then
        getRandomSymbol (rand (8 + (j - col) / 8))
      else jsGet cards j := by
  unfold clearCol
  rw [range_grid]
  simp only [GRID_SIZE, List.foldl_cons, List.foldl_nil, jsGet_jsSet]
  split_ifs <;>
    first | rfl | omega | exact congrArg (fun k => getRandomSymbol (rand (8 + k))) (by omega)

theorem length_clearRow (cards : List Cell) (row : Nat) (rand : Nat → ℚ)
    (h : row * 8 + 8 ≤ cards.length) : (clearRow cards row rand).length = cards.length := by
  unfold clearRow
  rw [range_grid]
  simp only [GRID_SIZE, List.foldl_cons, List.foldl_nil, length_jsSet]
  omega

theorem length_clearCol (cards : List Cell) (col : Nat) (rand : Nat → ℚ)
    (h : 7 * 8 + col < cards.length) : (clearCol cards col rand).length = cards.length := by
  unfold clearCol
  rw [range_grid]
  simp only [GRID_SIZE, List.foldl_cons, List.foldl_nil, length_jsSet]
  omega

theorem flipCard_selectionOk (s : GameState) (index : Nat) (h : SelectionOk s) :
    SelectionOk (flipCard s index) := by
  unfold flipCard
  split_ifs with hc
  · obtain ⟨hlen, hnot⟩ := hc
    refine ⟨?_, ?_⟩
    · simp only [List.length_append, List.length_singleton]; omega
    · simp only []
      rw [List.nodup_append]
      refine ⟨h.2, List.nodup_singleton _, ?_⟩
      intro a ha hb
      rw [List.mem_singleton] at hb
      exact hnot (hb ▸ ha)
  · exact h

theorem selectionOk_of_nil (s : GameState) (h : s.flippedCards = []) : SelectionOk s := by
  simp [SelectionOk, h]

theorem boosterStep_flippedCards (s : GameState) (mc : Nat) :
    (boosterStep s mc).flippedCards = s.flippedCards := by
  unfold boosterStep
  split_ifs <;> rfl

theorem bombStep_flippedCards (s : GameState) (mc : Nat) (r : ℚ) :
    (bombStep s mc r).flippedCards = s.flippedCards := by
  unfold bombStep
  split_ifs <;> rfl

theorem matchEffect_flippedCards (s : GameState) (r : ℚ) :
    (matchEffect s r).state.flippedCards = s.flippedCards := by
  simp only [matchEffect]
  split_ifs <;> simp only [bombStep_flippedCards, boosterStep_flippedCards]

theorem endEffect_flippedCards (s : GameState) :
    (endEffect s).state.flippedCards = s.flippedCards := by
  unfold endEffect
  split_ifs <;> rfl

theorem step_selectionOk (y : Sys) (op : Op) (h : SelectionOk y.st) :
    SelectionOk (step y op).st := by
  cases op with
  | boardEffect rand => exact h
  | flipCard index => exact flipCard_selectionOk _ _ h
  | handleBombClick index rand => exact selectionOk_of_nil _ rfl
  | cellClick index rand =>
    simp only [step]
    split_ifs
    · exact selectionOk_of_nil _ rfl
    · exact flipCard_selectionOk _ _ h
  | matchEffect r =>
    simp only [step, applyEffect, SelectionOk, matchEffect_flippedCards]
    exact h
  | timeout rand =>
    simp only [step]
    cases hp : y.pending with
    | nil => exact h
    | cons d rest =>
      cases d with
      | resetMatched c f => exact selectionOk_of_nil _ rfl
      | flipBack => exact selectionOk_of_nil _ rfl
  | handleStarClick rand => exact selectionOk_of_nil _ rfl
  | handleNextLevel rand => exact h
  | timerTick =>
    simp only [step, timerTick]
    split_ifs
    · exact h
    · exact h
  | endEffect =>
    simp only [step, applyEffect, SelectionOk, endEffect_flippedCards]
    exact h
  | toggleTheme => exact h
  | handleHint => exact h
  | handleShowResults => exact h

theorem runFrom_selectionOk (ops : List Op) :
    ∀ y : Sys, SelectionOk y.st → SelectionOk (runFrom y ops).st := by
  induction ops with
  | nil => intro y h; exact h
  | cons op rest ih =>
    intro y h
    exact ih (step y op) (step_selectionOk y op h)

theorem getRandomSymbol_zero : getRandomSymbol 0 = some Symbol.circle := by
  simp [getRandomSymbol, randomPick, symbols]

theorem generateRandomCards_zero :
    generateRandomCards (fun _ => 0) = List.replicate 64 (some Symbol.circle) := by
  simp [generateRandomCards, getRandomSymbol_zero, GRID_SIZE]

theorem runFrom_append (y : Sys) (a b : List Op) :
    runFrom y (a ++ b) = runFrom (runFrom y a) b := by
  simp only [runFrom, List.foldl_append]

theorem bombStep_numeric (s : GameState) (mc : Nat) (r : ℚ) :
    (bombStep s mc r).score = s.score ∧ (bombStep s mc r).moves = s.moves ∧
    (bombStep s mc r).timer = s.timer ∧ (bombStep s mc r).sliderValue = s.sliderValue ∧
    (bombStep s mc r).level = s.level := by
  unfold bombStep
  split_ifs <;> exact ⟨rfl, rfl, rfl, rfl, rfl⟩

theorem boosterStep_rangeOk (s : GameState) (mc : Nat) (h : RangeOk s) :
    RangeOk (boosterStep s mc) := by
  unfold boosterStep
  split_ifs with h4
  · obtain ⟨h1, h2, h3, h4', h5, h6, h7⟩ := h
    refine ⟨?_, ?_, h3, h4', ?_, ?_, h7⟩
    · simp only []; omega
    · simp only []; omega
    · simp only []; omega
    · simp only []; omega
  · exact h

theorem matchEffect_rangeOk (s : GameState) (r : ℚ) (h : RangeOk s) :
    RangeOk (matchEffect s r).state := by
  rcases Nat.lt_or_ge (matchCount s.cards s.flippedCards) 3 with h3 | h3
  · rw [matchEffect_state_of_no_match _ _ h3]
    exact h
  · rw [matchEffect_state_of_match _ _ h3]
    have hb := boosterStep_rangeOk s (matchCount s.cards s.flippedCards) h
    obtain ⟨e1, e2, e3, e4, e5⟩ :=
      bombStep_numeric (boosterStep s (matchCount s.cards s.flippedCards))
        (matchCount s.cards s.flippedCards) r
    unfold RangeOk at hb ⊢
    rw [e1, e2, e3, e4, e5]
    exact hb

theorem endEffect_rangeOk (s : GameState) (h : RangeOk s) : RangeOk (endEffect s).state := by
  unfold endEffect
  split_ifs
  · exact h
  · exact h

theorem timerTick_rangeOk (s : GameState) (h : RangeOk s) : RangeOk (timerTick s) := by
  unfold timerTick
  split_ifs with hc
  · obtain ⟨h1, h2, h3, h4, h5, h6, h7⟩ := h
    refine ⟨h1, h2, ?_, ?_, h5, h6, h7⟩
    · simp only []; omega
    · simp only []; omega
  · exact h

theorem handleNextLevel_rangeOk (s : GameState) (rand : Nat → ℚ) (h : RangeOk s) :
    RangeOk (handleNextLevel s rand) := by
  obtain ⟨h1, h2, h3, h4, h5, h6, h7⟩ := h
  simp only [RangeOk, handleNextLevel, TIME_LIMIT]
  omega

theorem handleStarClick_rangeOk (s : GameState) (rand : Nat → ℚ) (h : RangeOk s) :
    RangeOk (handleStarClick s rand) := by
  obtain ⟨h1, h2, h3, h4, h5, h6, h7⟩ := h
  simp only [RangeOk, handleStarClick, TIME_LIMIT] at *
  omega

theorem flipCard_rangeOk (s : GameState) (index : Nat) (h : RangeOk s) :
    RangeOk (flipCard s index) := by
  unfold flipCard
  split_ifs
  · exact h
  · exact h

theorem handleBombClick_rangeOk (s : GameState) (index : Nat) (rand : Nat → ℚ)
    (h : RangeOk s) : RangeOk (handleBombClick s index rand) := by
  simp only [RangeOk, handleBombClick] at *
  exact h

theorem step_rangeOk (y : Sys) (op : Op) (h : RangeOk y.st) : RangeOk (step y op).st := by
  cases op with
  | boardEffect rand => exact h
  | flipCard index => exact flipCard_rangeOk _ _ h
  | handleBombClick index rand => exact handleBombClick_rangeOk _ _ _ h
  | cellClick index rand =>
    simp only [step]
    split_ifs
    · exact handleBombClick_rangeOk _ _ _ h
    · exact flipCard_rangeOk _ _ h
  | matchEffect r => exact matchEffect_rangeOk _ _ h
  | timeout rand =>
    simp only [step]
    cases hp : y.pending with
    | nil => exact h
    | cons d rest =>
      cases d with
      | resetMatched c f => exact h
      | flipBack => exact h
  | handleStarClick rand => exact handleStarClick_rangeOk _ _ h
  | handleNextLevel rand => exact handleNextLevel_rangeOk _ _ h
  | timerTick => exact timerTick_rangeOk _ h
  | endEffect => exact endEffect_rangeOk _ h
  | toggleTheme => exact h
  | handleHint => exact h
  | handleShowResults => exact h

theorem runFrom_rangeOk (ops : List Op) :
    ∀ y : Sys, RangeOk y.st → RangeOk (runFrom y ops).st := by
  induction ops with
  | nil => intro y h; exact h
  | cons op rest ih =>
    intro y h
    exact ih (step y op) (step_rangeOk y op h)

theorem initialState_rangeOk : RangeOk initialState := by
  simp [RangeOk, initialState, TIME_LIMIT]

theorem matchCount_circles_four :
    matchCount (List.replicate 64 (some Symbol.circle)) [0, 1, 2, 3] = 4 := by decide

theorem resetCells_circles_four :
    resetCells (List.replicate 64 (some Symbol.circle)) (fun _ => 0) [0, 1, 2, 3] 0
      = List.replicate 64 (some Symbol.circle) := by
  simp only [resetCells, getRandomSymbol_zero]
  decide

theorem endEffect_frame (s : GameState) :
    (endEffect s).state.cards = s.cards ∧ (endEffect s).state.flippedCards = s.flippedCards ∧
    (endEffect s).state.moves = s.moves ∧ (endEffect s).state.bombIndex = s.bombIndex ∧
    (endEffect s).timeouts = [] := by
  unfold endEffect
  split_ifs <;> exact ⟨rfl, rfl, rfl, rfl, rfl⟩

theorem matchEffect_four_circles (s : GameState) (r : ℚ)
    (hc : s.cards = List.replicate 64 (some Symbol.circle))
    (hf : s.flippedCards = [0, 1, 2, 3]) :
    (matchEffect s r).state.moves = s.moves + 1 ∧
    (matchEffect s r).timeouts
      = [Deferred.resetMatched (List.replicate 64 (some Symbol.circle)) [0, 1, 2, 3]] := by
  have hmc : matchCount s.cards s.flippedCards = 4 := by
    rw [hc, hf]; exact matchCount_circles_four
  constructor
  · rw [matchEffect_state_of_match _ _ (by omega), hmc, (bombStep_numeric _ _ _).2.1]
    simp [boosterStep]
  · simp only [matchEffect, hmc]
    simp [hf, hc]

theorem fourMatchRound_moves (y : Sys)
    (hc : y.st.cards = List.replicate 64 (some Symbol.circle))
    (hf : y.st.flippedCards = []) (hp : y.pending = []) :
    (runFrom y fourMatchRound).st.cards = List.replicate 64 (some Symbol.circle) ∧
    (runFrom y fourMatchRound).st.flippedCards = [] ∧
    (runFrom y fourMatchRound).pending = [] ∧
    (runFrom y fourMatchRound).st.moves = y.st.moves + 1 := by
  simp only [fourMatchRound, runFrom, List.foldl_cons, List.foldl_nil, step, applyEffect]
  generalize hs1 : flipCard (flipCard (flipCard (flipCard y.st 0) 1) 2) 3 = s1
  have h1 : s1.flippedCards = [0, 1, 2, 3] ∧ s1.cards = y.st.cards ∧ s1.moves = y.st.moves := by
    rw [← hs1]; simp [flipCard, hf]
  obtain ⟨m1, m2⟩ := matchEffect_four_circles s1 0 (h1.2.1.trans hc) h1.1
  obtain ⟨_, _, e3, _, e5⟩ := endEffect_frame (matchEffect s1 0).state
  rw [hp, m2, e5]
  simp only [List.nil_append, List.append_nil, fireDeferred, resetCells_circles_four,
    e3, m1, h1.2.2, true_and]

theorem resetCells_nil (c : List Cell) (rand : Nat → ℚ) (k : Nat) :
    resetCells c rand [] k = c := rfl

theorem resetCells_cons (c : List Cell) (rand : Nat → ℚ) (i : Nat) (rest : List Nat) (k : Nat) :
    resetCells c rand (i :: rest) k
      = resetCells (jsSet c i (getRandomSymbol (rand k))) rand rest (k + 1) := rfl

theorem length_resetCells (rand : Nat → ℚ) (l : List Nat) :
    ∀ (c : List Cell) (k : Nat), (∀ i ∈ l, i < c.length) →
      (resetCells c rand l k).length = c.length := by
  induction l with
  | nil => intro c k _; rfl
  | cons i rest ih =>
    intro c k h
    have hi : i < c.length := h i (List.mem_cons_self _ _)
    have hl : (jsSet c i (getRandomSymbol (rand k))).length = c.length := by
      rw [length_jsSet]; omega
    rw [resetCells_cons, ih _ _ (by
      intro j hj
      rw [hl]
      exact h j (List.mem_cons_of_mem _ hj)), hl]

theorem jsGet_resetCells_of_not_mem (rand : Nat → ℚ) (l : List Nat) (j : Nat) :
    ∀ (c : List Cell) (k : Nat), j ∉ l → jsGet (resetCells c rand l k) j = jsGet c j := by
  induction l with
  | nil => intro c k _; rfl
  | cons i rest ih =>
    intro c k h
    have hji : j ≠ i := fun e => h (e ▸ List.mem_cons_self _ _)
    have hjr : j ∉ rest := fun hm => h (List.mem_cons_of_mem _ hm)
    rw [resetCells_cons, ih _ _ hjr, jsGet_jsSet, if_neg hji]

theorem jsGet_resetCells_of_mem (rand : Nat → ℚ) (l : List Nat) (j : Nat) :
    ∀ (c : List Cell) (k : Nat), j ∈ l →
      ∃ m, m < l.length ∧ l[m]? = some j ∧
        jsGet (resetCells c rand l k) j = getRandomSymbol (rand (k + m)) := by
  induction l with
  | nil => intro c k h; exact absurd h (List.not_mem_nil _)
  | cons i rest ih =>
    intro c k h
    by_cases hjr : j ∈ rest
    · obtain ⟨m, hm, hget, hval⟩ := ih (jsSet c i (getRandomSymbol (rand k))) (k + 1) hjr
      refine ⟨m + 1, by simp only [List.length_cons]; omega, by simpa using hget, ?_⟩
      rw [resetCells_cons, hval]
      exact congrArg (fun t => getRandomSymbol (rand t)) (by omega)
    · have hji : j = i := by
        rcases List.mem_cons.mp h with e | e
        · exact e
        · exact absurd e hjr
      subst hji
      refine ⟨0, by simp, by simp, ?_⟩
      rw [resetCells_cons, jsGet_resetCells_of_not_mem _ _ _ _ _ hjr, jsGet_jsSet, if_pos rfl]
      rfl

theorem matchEffect_timeouts_of_match (s : GameState) (r : ℚ)
    (h : 3 ≤ matchCount s.cards s.flippedCards) :
    (matchEffect s r).timeouts = [Deferred.resetMatched s.cards s.flippedCards] := by
  have hlen : 3 ≤ s.flippedCards.length := le_trans h (matchCount_le_length _ _)
  simp only [matchEffect, if_pos hlen, if_pos h]

theorem length_generateRandomCards (rand : Nat → ℚ) :
    (generateRandomCards rand).length = 64 := by
  simp [generateRandomCards, GRID_SIZE]

theorem generateRandomCards_cells (rand : Nat → ℚ) (h : ∀ k, 0 ≤ rand k ∧ rand k < 1) :
    ∀ c ∈ generateRandomCards rand, (∃ x ∈ symbols, c = some x) ∧ c ≠ some Symbol.bomb := by
  intro c hc
  simp only [generateRandomCards, List.mem_map, List.mem_range] at hc
  obtain ⟨k, _, rfl⟩ := hc
  obtain ⟨x, hx, hx2⟩ := getRandomSymbol_mem (rand k) (h k).1 (h k).2
  refine ⟨⟨x, hx, hx2⟩, ?_⟩
  rw [hx2]
  intro hb
  exact bomb_not_mem_symbols (Option.some.inj hb ▸ hx)

theorem randomPick_half : randomPick [3, 1, 2, 0, 7] (1 / 2) = some 2 := by
  have hfl : ⌊(1 / 2 : ℚ) * (([3, 1, 2, 0, 7] : List Nat).length : ℚ)⌋ = Int.ofNat 2 := by
    rw [Int.floor_eq_iff]
    constructor <;> norm_num
  unfold randomPick
  rw [hfl]
  rfl

theorem randomPick_half_inv : randomPick [3, 1, 2, 0, 7] (2⁻¹ : ℚ) = some 2 := by
  rw [← one_div]; exact randomPick_half

theorem symbol_cases (x : Symbol) : x ∈ symbols ∨ x = Symbol.bomb := by
  cases x <;> simp [symbols]

theorem jsGet_mem (cards : List Cell) (j : Nat) (h : j < cards.length) :
    jsGet cards j ∈ cards := by
  simp only [jsGet, List.getD_eq_getElem?_getD, List.getElem?_eq_getElem h, Option.getD_some]
  exact List.getElem_mem _

theorem generateRandomCards_boardOk (rand : Nat → ℚ) (h : Draws rand) :
    BoardOk (generateRandomCards rand) := by
  refine ⟨length_generateRandomCards rand, ?_⟩
  intro j hj
  have hm := jsGet_mem (generateRandomCards rand) j (by rw [length_generateRandomCards]; exact hj)
  obtain ⟨⟨x, _, hx⟩, _⟩ := generateRandomCards_cells rand h _ hm
  exact ⟨x, hx⟩

theorem handleBombClick_boardOk (s : GameState) (index : Nat) (rand : Nat → ℚ)
    (hidx : index < 64) (hr : Draws rand) (h : BoardOk s.cards) :
    BoardOk (handleBombClick s index rand).cards := by
  have hcards : (handleBombClick s index rand).cards
      = clearCol (clearRow s.cards (index / 8) rand) (index % 8) rand := by
    simp only [handleBombClick, GRID_SIZE]
  obtain ⟨hlen, hcell⟩ := h
  rw [hcards]
  constructor
  · rw [length_clearCol, length_clearRow, hlen]
    · omega
    · rw [length_clearRow] <;> omega
  · intro j hj
    rw [jsGet_clearCol, jsGet_clearRow]
    split_ifs
    · obtain ⟨x, _, hx⟩ := getRandomSymbol_mem _ (hr (8 + (j - index % 8) / 8)).1
        (hr (8 + (j - index % 8) / 8)).2
      exact ⟨x, hx⟩
    · obtain ⟨x, _, hx⟩ := getRandomSymbol_mem _ (hr (j - index / 8 * 8)).1
        (hr (j - index / 8 * 8)).2
      exact ⟨x, hx⟩
    · exact hcell j hj

theorem boosterStep_cards (s : GameState) (mc : Nat) : (boosterStep s mc).cards = s.cards := by
  unfold boosterStep
  split_ifs <;> rfl

theorem bombStep_boardOk (s : GameState) (mc : Nat) (r : ℚ) (h : BoardOk s.cards) :
    BoardOk (bombStep s mc r).cards := by
  unfold bombStep
  split_ifs
  · obtain ⟨hlen, hcell⟩ := h
    refine ⟨by simp [hlen], ?_⟩
    intro j hj
    obtain ⟨x, hx⟩ := hcell j hj
    simp only [jsGet, List.getD_eq_getElem?_getD, List.getElem?_mapIdx] at hx ⊢
    have hjl : j < s.cards.length := by omega
    rw [List.getElem?_eq_getElem hjl] at hx ⊢
    simp only [Option.map_some', Option.getD_some] at hx ⊢
    split_ifs
    · exact ⟨Symbol.bomb, rfl⟩
    · exact ⟨x, hx⟩
  · exact h

theorem matchEffect_boardOk (s : GameState) (r : ℚ) (h : BoardOk s.cards) :
    BoardOk (matchEffect s r).state.cards := by
  rcases Nat.lt_or_ge (matchCount s.cards s.flippedCards) 3 with h3 | h3
  · rw [matchEffect_state_of_no_match _ _ h3]
    exact h
  · rw [matchEffect_state_of_match _ _ h3]
    apply bombStep_boardOk
    rw [boosterStep_cards]
    exact h

theorem matchEffect_timeouts_ok (s : GameState) (r : ℚ) (h : BoardOk s.cards)
    (hin : ∀ i ∈ s.flippedCards, i < 64) :
    ∀ d ∈ (matchEffect s r).timeouts, DeferredOk d := by
  intro d hd
  by_cases hmc : 3 ≤ matchCount s.cards s.flippedCards
  · rw [matchEffect_timeouts_of_match s r hmc, List.mem_singleton] at hd
    subst hd
    exact ⟨h, hin⟩
  · by_cases hl : 3 ≤ s.flippedCards.length
    · simp only [matchEffect, if_pos hl, if_neg hmc, List.mem_singleton] at hd
      subst hd
      trivial
    · simp only [matchEffect, if_neg hl, List.not_mem_nil] at hd

theorem resetCells_boardOk (c : List Cell) (rand : Nat → ℚ) (f : List Nat)
    (hr : Draws rand) (h : BoardOk c) (hin : ∀ i ∈ f, i < 64) :
    BoardOk (resetCells c rand f 0) := by
  obtain ⟨hlen, hcell⟩ := h
  constructor
  · rw [length_resetCells, hlen]
    intro i hi
    rw [hlen]
    exact hin i hi
  · intro j hj
    by_cases hm : j ∈ f
    · obtain ⟨m, _, _, hval⟩ := jsGet_resetCells_of_mem rand f j c 0 hm
      rw [hval]
      obtain ⟨x, _, hx⟩ := getRandomSymbol_mem _ (hr (0 + m)).1 (hr (0 + m)).2
      exact ⟨x, hx⟩
    · rw [jsGet_resetCells_of_not_mem rand f j c 0 hm]
      exact hcell j hj

theorem flipCard_cards (s : GameState) (index : Nat) : (flipCard s index).cards = s.cards := by
  unfold flipCard
  split_ifs <;> rfl

theorem flipCard_inRange (s : GameState) (index : Nat) (hidx : index < 64)
    (h : ∀ i ∈ s.flippedCards, i < 64) : ∀ i ∈ (flipCard s index).flippedCards, i < 64 := by
  unfold flipCard
  split_ifs
  · intro i hi
    rcases List.mem_append.mp hi with hm | hm
    · exact h i hm
    · rw [List.mem_singleton] at hm
      omega
  · exact h

theorem timerTick_frame (s : GameState) :
    (timerTick s).cards = s.cards ∧ (timerTick s).flippedCards = s.flippedCards := by
  unfold timerTick
  split_ifs <;> exact ⟨rfl, rfl⟩

theorem handleBombClick_flippedCards (s : GameState) (index : Nat) (rand : Nat → ℚ) :
    (handleBombClick s index rand).flippedCards = [] := by
  simp only [handleBombClick]

theorem step_sysOk (y : Sys) (op : Op) (hop : OpOk op) (h : SysOk y) : SysOk (step y op) := by
  obtain ⟨hb, hf, hp⟩ := h
  cases op with
  | boardEffect rand =>
    simp only [OpOk] at hop
    simp only [SysOk, step, boardEffect]
    exact ⟨generateRandomCards_boardOk rand hop, hf, hp⟩
  | flipCard index =>
    simp only [OpOk] at hop
    simp only [SysOk, step, flipCard_cards]
    exact ⟨hb, flipCard_inRange _ _ hop hf, hp⟩
  | handleBombClick index rand =>
    simp only [OpOk] at hop
    simp only [SysOk, step, handleBombClick_flippedCards, List.not_mem_nil, false_imp_iff,
      implies_true, true_and]
    exact ⟨handleBombClick_boardOk _ _ _ hop.1 hop.2 hb, hp⟩
  | cellClick index rand =>
    simp only [OpOk] at hop
    simp only [step]
    split_ifs
    · simp only [SysOk, handleBombClick_flippedCards, List.not_mem_nil, false_imp_iff,
        implies_true, true_and]
      exact ⟨handleBombClick_boardOk _ _ _ hop.1 hop.2 hb, hp⟩
    · simp only [SysOk, flipCard_cards]
      exact ⟨hb, flipCard_inRange _ _ hop.1 hf, hp⟩
  | matchEffect r =>
    simp only [SysOk, step, applyEffect, matchEffect_flippedCards]
    refine ⟨matchEffect_boardOk _ _ hb, hf, ?_⟩
    intro d hd
    rcases List.mem_append.mp hd with hm | hm
    · exact hp d hm
    · exact matchEffect_timeouts_ok _ _ hb hf d hm
  | timeout rand =>
    simp only [OpOk] at hop
    simp only [step]
    cases hpend : y.pending with
    | nil =>
      simp only [SysOk, hpend]
      exact ⟨hb, hf, fun d hd => absurd hd (List.not_mem_nil _)⟩
    | cons d rest =>
      have hd : DeferredOk d := hp d (by rw [hpend]; exact List.mem_cons_self _ _)
      have hrest : ∀ e ∈ rest, DeferredOk e := fun e he =>
        hp e (by rw [hpend]; exact List.mem_cons_of_mem _ he)
      cases d with
      | resetMatched c f =>
        simp only [SysOk, fireDeferred, List.not_mem_nil, false_imp_iff, implies_true,
          true_and]
        exact ⟨resetCells_boardOk c rand f hop hd.1 hd.2, hrest⟩
      | flipBack =>
        simp only [SysOk, fireDeferred, List.not_mem_nil, false_imp_iff, implies_true,
          true_and]
        exact ⟨hb, hrest⟩
  | handleStarClick rand =>
    simp only [OpOk] at hop
    simp only [SysOk, step, handleStarClick, List.not_mem_nil, false_imp_iff, implies_true,
      true_and]
    exact ⟨generateRandomCards_boardOk rand hop, hp⟩
  | handleNextLevel rand =>
    simp only [OpOk] at hop
    simp only [SysOk, step, handleNextLevel]
    exact ⟨generateRandomCards_boardOk rand hop, hf, hp⟩
  | timerTick =>
    obtain ⟨e1, e2⟩ := timerTick_frame y.st
    simp only [SysOk, step, e1, e2]
    exact ⟨hb, hf, hp⟩
  | endEffect =>
    obtain ⟨e1, e2, _, _, e5⟩ := endEffect_frame y.st
    simp only [SysOk, step, applyEffect, e1, e2, e5, List.append_nil]
    exact ⟨hb, hf, hp⟩
  | toggleTheme =>
    simp only [SysOk, step, toggleTheme]
    exact ⟨hb, hf, hp⟩
  | handleHint =>
    simp only [SysOk, step]
    exact ⟨hb, hf, hp⟩
  | handleShowResults =>
    simp only [SysOk, step]
    exact ⟨hb, hf, hp⟩

theorem runFrom_sysOk (ops : List Op) :
    ∀ y : Sys, (∀ op ∈ ops, OpOk op) → SysOk y → SysOk (runFrom y ops) := by
  induction ops with
  | nil => intro y _ h; exact h
  | cons op rest ih =>
    intro y hops h
    exact ih (step y op) (fun o ho => hops o (List.mem_cons_of_mem _ ho))
      (step_sysOk y op (hops op (List.mem_cons_self _ _)) h)

theorem initialSys_board_sysOk (rand0 : Nat → ℚ) (h0 : Draws rand0) :
    SysOk (step initialSys (Op.boardEffect rand0)) := by
  simp only [SysOk, step, boardEffect, initialSys, initialState, List.not_mem_nil,
    false_imp_iff, implies_true, and_true]
  exact generateRandomCards_boardOk rand0 h0

theorem lt_length_of_jsGet_some (cards : List Cell) (i : Nat) (x : Symbol)
    (h : jsGet cards i = some x) : i < cards.length := by
  by_contra hlt
  simp only [jsGet, List.getD_eq_getElem?_getD] at h
  rw [List.getElem?_eq_none (by omega)] at h
  exact Option.noConfusion h

theorem matchEffect_bomb_placed (s : GameState) (r : ℚ)
    (hmc : 5 ≤ matchCount s.cards s.flippedCards)
    (hsel : ∀ i ∈ s.flippedCards, ∃ x, jsGet s.cards i = some x)
    (h0 : 0 ≤ r) (h1 : r < 1) :
    ∃ b, b ∈ s.flippedCards ∧
      (matchEffect s r).state.bombIndex = some b ∧
      (matchEffect s r).state.cards.length = s.cards.length ∧
      jsGet (matchEffect s r).state.cards b = some Symbol.bomb ∧
      ∀ j, j ≠ b → jsGet (matchEffect s r).state.cards j = jsGet s.cards j := by
  have hlen := matchCount_le_length s.cards s.flippedCards
  have hne : s.flippedCards ≠ [] := by
    intro hnil
    rw [hnil] at hlen hmc
    simp only [List.length_nil] at hlen
    omega
  obtain ⟨b, hb, hpick⟩ := randomPick_mem s.flippedCards r h0 h1 hne
  have hst : (matchEffect s r).state =
      { s with
        cards := s.cards.mapIdx
          (fun index card => if some index = some b then some Symbol.bomb else card)
        bombIndex := some b } := by
    rw [matchEffect_state_of_match _ _ (by omega), boosterStep_of_ne _ _ (by omega)]
    simp only [bombStep, if_pos hmc, hpick]
  rw [hst]
  refine ⟨b, hb, rfl, by simp, ?_, ?_⟩
  · obtain ⟨x, hx⟩ := hsel b hb
    have hbl := lt_length_of_jsGet_some _ _ _ hx
    simp [jsGet, List.getElem?_eq_getElem hbl]
  · intro j hj
    simp only [jsGet, List.getD_eq_getElem?_getD, List.getElem?_mapIdx]
    cases s.cards[j]? with
    | none => rfl
    | some c => simp [hj]

theorem fiveMatchState_selected :
    ∀ i ∈ fiveMatchState.flippedCards, ∃ x, jsGet fiveMatchState.cards i = some x := by
  have h : ∀ i ∈ fiveMatchState.flippedCards,
      jsGet fiveMatchState.cards i = some Symbol.circle := by decide
  exact fun i hi => ⟨Symbol.circle, h i hi⟩

theorem randomPick_zero_outOfBoard :
    randomPick outOfBoardState.flippedCards 0 = some 70 := by
  simp [randomPick, outOfBoardState]

theorem endEffect_of_moves (s : GameState) (h : MAX_MOVES ≤ s.moves) :
    (endEffect s).state.nextLevel = true ∧ (endEffect s).alerts = [Alert.gameOver] := by
  have hc : TARGET_SCORE ≤ s.score ∨ MAX_MOVES ≤ s.moves ∨ s.timer = 0 := Or.inr (Or.inl h)
  simp only [endEffect, if_pos hc, and_self]

theorem fourMatchRound_gameOver (y : Sys)
    (hc : y.st.cards = List.replicate 64 (some Symbol.circle))
    (hf : y.st.flippedCards = []) (hp : y.pending = []) (h6 : 6 ≤ y.st.moves) :
    (runFrom y fourMatchRound).st.nextLevel = true ∧
    Alert.gameOver ∈ (runFrom y fourMatchRound).alerts := by
  simp only [fourMatchRound, runFrom, List.foldl_cons, List.foldl_nil, step, applyEffect]
  generalize hs1 : flipCard (flipCard (flipCard (flipCard y.st 0) 1) 2) 3 = s1
  have h1 : s1.flippedCards = [0, 1, 2, 3] ∧ s1.cards = y.st.cards ∧ s1.moves = y.st.moves := by
    rw [← hs1]; simp [flipCard, hf]
  obtain ⟨m1, m2⟩ := matchEffect_four_circles s1 0 (h1.2.1.trans hc) h1.1
  obtain ⟨_, _, _, _, e5⟩ := endEffect_frame (matchEffect s1 0).state
  obtain ⟨g1, g2⟩ := endEffect_of_moves (matchEffect s1 0).state (by
    rw [m1, h1.2.2]; simp only [MAX_MOVES]; omega)
  rw [hp, m2, e5]
  simp only [List.nil_append, List.append_nil, fireDeferred, g1, g2, List.mem_append,
    List.mem_singleton, or_true, and_self]

theorem resetMatched_bombIndex (c : List Cell) (f : List Nat) (atFire : GameState)
    (rand : Nat → ℚ) :
    (fireDeferred (Deferred.resetMatched c f) atFire rand).bombIndex = atFire.bombIndex := by
  simp only [fireDeferred]

/-! ## Claims -/

/-- C1 (evaluation of the code at a three-card match): the state with a board of 64
equal symbols and selection `[0, 1, 2]` is reached from the initial state by the board
effect and three card flips; there the match-check effect computes `matchCount = 3`,
yet it leaves `score` and `moves` unchanged for every draw, so `score` does not grow by
3 and `moves` does not grow by 1. -/
theorem matchEffect_three_match_no_award :
    (run [Op.boardEffect (fun _ => 0), Op.flipCard 0, Op.flipCard 1, Op.flipCard 2]).st
      = threeMatchState ∧
    matchCount threeMatchState.cards threeMatchState.flippedCards = 3 ∧
    ∀ r : ℚ,
      (matchEffect threeMatchState r).state.score = threeMatchState.score ∧
      (matchEffect threeMatchState r).state.moves = threeMatchState.moves ∧
      (matchEffect threeMatchState r).state.score ≠ threeMatchState.score + 3 ∧
      (matchEffect threeMatchState r).state.moves ≠ threeMatchState.moves + 1 := by
  have hmc : matchCount threeMatchState.cards threeMatchState.flippedCards = 3 := by decide
  have hboard : generateRandomCards (fun _ => 0) = List.replicate 64 (some Symbol.circle) := by
    simp [generateRandomCards, getRandomSymbol, randomPick, symbols, GRID_SIZE]
  refine ⟨?_, hmc, ?_⟩
  · simp only [run, runFrom, List.foldl_cons, List.foldl_nil, step, boardEffect, initialSys,
      hboard]
    decide
  intro r
  have hst : (matchEffect threeMatchState r).state = threeMatchState := by
    rw [matchEffect_state_of_match _ _ (by rw [hmc]), hmc,
      boosterStep_of_ne _ _ (by decide), bombStep_of_lt _ _ _ (by decide)]
  rw [hst]
  refine ⟨rfl, rfl, ?_, ?_⟩ <;> decide

/-- C2: for a selection of at least three indices, the `matchCount` computed by the
match-check effect is the number of selected indices whose board symbol equals the
symbol at the first selected index, it lies between 1 and the selection size, and a
selection whose first symbol differs from the two others counts 1. -/
theorem matchCount_first_reference (cards : List Cell) (flippedCards : List Nat)
    (h : 3 ≤ flippedCards.length) :
    matchCount cards flippedCards = matchCountSpec cards flippedCards ∧
    1 ≤ matchCount cards flippedCards ∧
    matchCount cards flippedCards ≤ flippedCards.length ∧
    (∀ i0 i1 i2 : Nat, flippedCards = [i0, i1, i2] →
      jsGet cards i1 ≠ jsGet cards i0 → jsGet cards i2 ≠ jsGet cards i0 →
      matchCount cards flippedCards = 1) := by
  refine ⟨matchCount_eq_matchCountSpec _ _, matchCount_pos _ _ ?_,
    matchCount_le_length _ _, ?_⟩
  · intro hnil
    rw [hnil] at h
    simp at h
  · intro i0 i1 i2 hsel h1 h2
    subst hsel
    rw [matchCount_eq_matchCountSpec]
    simp [matchCountSpec, List.countP_cons, h1, h2]

/-- Instance of C2: the symbols in selection order are `[🔺, ⚪, ⚪]` and the count is
1, not 2. -/
theorem matchCount_first_reference_witness :
    3 ≤ [0, 1, 2].length ∧
    matchCount [some Symbol.triangle, some Symbol.circle, some Symbol.circle] [0, 1, 2] = 1 :=
  ⟨by decide,
   (matchCount_first_reference
      [some Symbol.triangle, some Symbol.circle, some Symbol.circle] [0, 1, 2]
      (by decide)).2.2.2 0 1 2 rfl (by decide) (by decide)⟩

/-- C3: `flipCard(i)` appends `i` at the end of the selection exactly when the selection
has fewer than five elements and does not contain `i`; in every other case the state is
left unchanged, so flipping an index already present is a no-op and `flipCard` is
idempotent. -/
theorem flipCard_append_iff (s : GameState) (i : Nat) :
    ((flipCard s i).flippedCards = s.flippedCards ++ [i] ↔
        (s.flippedCards.length < 5 ∧ i ∉ s.flippedCards)) ∧
    (¬ (s.flippedCards.length < 5 ∧ i ∉ s.flippedCards) → flipCard s i = s) ∧
    (i ∈ s.flippedCards → flipCard s i = s) ∧
    flipCard (flipCard s i) i = flipCard s i := by
  refine ⟨?_, ?_, ?_, ?_⟩
  · constructor
    · intro h
      by_contra hc
      have hs : flipCard s i = s := by unfold flipCard; rw [if_neg hc]
      rw [hs] at h
      have := congrArg List.length h
      simp at this
    · intro hc
      unfold flipCard; rw [if_pos hc]
  · intro hc
    unfold flipCard; rw [if_neg hc]
  · intro hmem
    unfold flipCard; rw [if_neg (fun hc => hc.2 hmem)]
  · by_cases hc : s.flippedCards.length < 5 ∧ i ∉ s.flippedCards
    · have h1 : flipCard s i = { s with flippedCards := s.flippedCards ++ [i] } := by
        unfold flipCard; rw [if_pos hc]
      rw [h1]
      unfold flipCard
      rw [if_neg]
      simp
    · have h1 : flipCard s i = s := by unfold flipCard; rw [if_neg hc]
      rw [h1, h1]

/-- Instance of C3 on the selection `[4, 9]`: index `7` is appended, index `9` is not. -/
theorem flipCard_append_iff_witness :
    (flipCard { initialState with flippedCards := [4, 9] } 7).flippedCards = [4, 9] ++ [7] ∧
    flipCard { initialState with flippedCards := [4, 9] } 9
      = { initialState with flippedCards := [4, 9] } :=
  ⟨(flipCard_append_iff { initialState with flippedCards := [4, 9] } 7).1.mpr (by decide),
   (flipCard_append_iff { initialState with flippedCards := [4, 9] } 9).2.2.1 (by decide)⟩

/-- C4: in every state reached from the initial state by any sequence of events
(card flips, bomb clicks, match-check runs, timeout expiries, star clicks, level
advances, timer ticks, end checks), the selection has at most five elements and its
indices are pairwise distinct. -/
theorem selection_invariant (ops : List Op) :
    (run ops).st.flippedCards.length ≤ 5 ∧ (run ops).st.flippedCards.Nodup :=
  runFrom_selectionOk ops initialSys (selectionOk_of_nil _ rfl)

/-- C5: when every draw lies in `[0, 1)`, `generateRandomCards` returns a board of
`GRID_SIZE * GRID_SIZE = 64` cells, each holding one of the five entries of `symbols`
and none holding the bomb marker. -/
theorem generateRandomCards_spec (rand : Nat → ℚ) (h : ∀ k, 0 ≤ rand k ∧ rand k < 1) :
    (generateRandomCards rand).length = GRID_SIZE * GRID_SIZE ∧
    GRID_SIZE * GRID_SIZE = 64 ∧
    ∀ c ∈ generateRandomCards rand, (∃ x ∈ symbols, c = some x) ∧ c ≠ some Symbol.bomb := by
  exact ⟨by simp [generateRandomCards], by decide, generateRandomCards_cells rand h⟩

/-- Instance of C5 for the draw sequence `0, 1/5, 2/5, 3/5, 4/5, 0, ...`. -/
theorem generateRandomCards_spec_witness :
    (∀ k : Nat, 0 ≤ ((k % 5 : Nat) : ℚ) / 5 ∧ ((k % 5 : Nat) : ℚ) / 5 < 1) ∧
    (generateRandomCards (fun k => ((k % 5 : Nat) : ℚ) / 5)).length = GRID_SIZE * GRID_SIZE ∧
    GRID_SIZE * GRID_SIZE = 64 ∧
    ∀ c ∈ generateRandomCards (fun k => ((k % 5 : Nat) : ℚ) / 5),
      (∃ x ∈ symbols, c = some x) ∧ c ≠ some Symbol.bomb :=
  have h : ∀ k : Nat, 0 ≤ ((k % 5 : Nat) : ℚ) / 5 ∧ ((k % 5 : Nat) : ℚ) / 5 < 1 := by
    intro k
    have h5 : k % 5 < 5 := Nat.mod_lt k (by decide)
    have h5q : ((k % 5 : Nat) : ℚ) < 5 := by exact_mod_cast h5
    constructor
    · positivity
    · rw [div_lt_one (by norm_num)]; exact h5q
  ⟨h, generateRandomCards_spec _ h⟩

/-- C6: when the match-check effect runs with `matchCount` exactly 4, the new
`sliderValue` is `min (sliderValue + 20) 100` and `starAvailable` is true; for every
other `matchCount` the effect leaves `sliderValue` and `starAvailable` unchanged. -/
theorem matchEffect_booster (s : GameState) (r : ℚ) :
    (matchCount s.cards s.flippedCards = 4 →
      (matchEffect s r).state.sliderValue = min (s.sliderValue + 20) 100 ∧
      (matchEffect s r).state.starAvailable = true) ∧
    (matchCount s.cards s.flippedCards ≠ 4 →
      (matchEffect s r).state.sliderValue = s.sliderValue ∧
      (matchEffect s r).state.starAvailable = s.starAvailable) := by
  constructor
  · intro h4
    rw [matchEffect_state_of_match _ _ (by omega), bombStep_sliderValue,
      bombStep_starAvailable, h4]
    simp [boosterStep]
  · intro hne
    rcases Nat.lt_or_ge (matchCount s.cards s.flippedCards) 3 with h3 | h3
    · rw [matchEffect_state_of_no_match _ _ h3]
      exact ⟨rfl, rfl⟩
    · rw [matchEffect_state_of_match _ _ h3, bombStep_sliderValue,
        bombStep_starAvailable, boosterStep_of_ne _ _ hne]
      exact ⟨rfl, rfl⟩

/-- Instance of C6: four equal selected cells at `sliderValue = 90` give 100 and the star. -/
theorem matchEffect_booster_witness :
    (matchEffect { threeMatchState with flippedCards := [0, 1, 2, 3], sliderValue := 90 } 0).state.sliderValue
        = min (90 + 20) 100 ∧
    (matchEffect { threeMatchState with flippedCards := [0, 1, 2, 3], sliderValue := 90 } 0).state.starAvailable
        = true :=
  (matchEffect_booster { threeMatchState with flippedCards := [0, 1, 2, 3], sliderValue := 90 } 0).1
    (by decide)

/-- C7 (counterexample): on a 64-cell board with the selection `[70, ..., 74]`, built by
five `flipCard` calls, every selected cell reads `undefined`, so `matchCount` is 5; the
match-check effect then sets `bombIndex` to 70, which is not a board index, and
overwrites no cell: the board is unchanged and holds no bomb marker. -/
theorem matchEffect_bomb_outside_board :
    (run [Op.boardEffect (fun _ => 0), Op.flipCard 70, Op.flipCard 71, Op.flipCard 72,
      Op.flipCard 73, Op.flipCard 74]).st = outOfBoardState ∧
    matchCount outOfBoardState.cards outOfBoardState.flippedCards = 5 ∧
    (matchEffect outOfBoardState 0).state.bombIndex = some 70 ∧
    ¬ (70 < outOfBoardState.cards.length) ∧
    (matchEffect outOfBoardState 0).state.cards = outOfBoardState.cards ∧
    some Symbol.bomb ∉ (matchEffect outOfBoardState 0).state.cards := by
  have hmc : matchCount outOfBoardState.cards outOfBoardState.flippedCards = 5 := by decide
  have hst : (matchEffect outOfBoardState 0).state =
      { outOfBoardState with
        cards := outOfBoardState.cards.mapIdx
          (fun index card => if some index = some 70 then some Symbol.bomb else card)
        bombIndex := some 70 } := by
    rw [matchEffect_state_of_match _ _ (by rw [hmc]; decide), hmc,
      boosterStep_of_ne _ _ (by decide)]
    simp only [bombStep, randomPick_zero_outOfBoard]
    rfl
  refine ⟨?_, hmc, ?_, by decide, ?_, ?_⟩
  · simp only [run, runFrom, List.foldl_cons, List.foldl_nil, step, boardEffect, initialSys,
      generateRandomCards_zero]
    decide
  · rw [hst]
  · rw [hst]
    decide
  · rw [hst]
    decide

/-- C7 (amended): when `matchCount` is at least 5, every selected index addresses a
board cell that holds a symbol (so the selection lies inside the board) and the draw
lies in `[0, 1)`, the match-check effect writes the bomb marker into exactly one cell:
its index belongs to the selection, `bombIndex` is set to that index, the board keeps
its length and every other cell is unchanged. -/
theorem matchEffect_bomb (s : GameState) (r : ℚ)
    (hmc : 5 ≤ matchCount s.cards s.flippedCards)
    (hsel : ∀ i ∈ s.flippedCards, ∃ x, jsGet s.cards i = some x)
    (h0 : 0 ≤ r) (h1 : r < 1) :
    ∃ b, b ∈ s.flippedCards ∧
      b < s.cards.length ∧
      (matchEffect s r).state.bombIndex = some b ∧
      (matchEffect s r).state.cards.length = s.cards.length ∧
      jsGet (matchEffect s r).state.cards b = some Symbol.bomb ∧
      ∀ j, j ≠ b → jsGet (matchEffect s r).state.cards j = jsGet s.cards j := by
  obtain ⟨b, hb, h2, h3, h4, h5⟩ := matchEffect_bomb_placed s r hmc hsel h0 h1
  obtain ⟨x, hx⟩ := hsel b hb
  exact ⟨b, hb, lt_length_of_jsGet_some _ _ _ hx, h2, h3, h4, h5⟩

/-- Instance of amended C7 on a uniform board with selection `[3, 1, 2, 0, 7]` and draw
`1/2`. -/
theorem matchEffect_bomb_witness :
    5 ≤ matchCount fiveMatchState.cards fiveMatchState.flippedCards ∧
    (∀ i ∈ fiveMatchState.flippedCards, ∃ x, jsGet fiveMatchState.cards i = some x) ∧
    ∃ b, b ∈ fiveMatchState.flippedCards ∧
      b < fiveMatchState.cards.length ∧
      (matchEffect fiveMatchState (1 / 2)).state.bombIndex = some b ∧
      (matchEffect fiveMatchState (1 / 2)).state.cards.length = fiveMatchState.cards.length ∧
      jsGet (matchEffect fiveMatchState (1 / 2)).state.cards b = some Symbol.bomb ∧
      ∀ j, j ≠ b →
        jsGet (matchEffect fiveMatchState (1 / 2)).state.cards j = jsGet fiveMatchState.cards j :=
  ⟨by decide, fiveMatchState_selected,
   matchEffect_bomb fiveMatchState (1 / 2) (by decide) fiveMatchState_selected
     (by norm_num) (by norm_num)⟩

/-- C8: on a 64-cell board, for an index below 64 and draws in `[0, 1)`,
`handleBombClick(index)` returns a 64-cell board in which every cell of column
`index % 8` and every cell of row `index / 8` holds the symbol generated for it by this
call (a member of `symbols`, so never the bomb marker), every cell outside that row and
column is as before, `bombIndex` is `null`, the selection is empty and all other state
variables are unchanged. -/
theorem handleBombClick_spec (s : GameState) (index : Nat) (rand : Nat → ℚ)
    (hlen : s.cards.length = 64) (hidx : index < 64)
    (hr : ∀ k, 0 ≤ rand k ∧ rand k < 1) :
    (handleBombClick s index rand).cards.length = 64 ∧
    (∀ i, i < 8 →
      jsGet (handleBombClick s index rand).cards (i * 8 + index % 8)
        = getRandomSymbol (rand (8 + i))) ∧
    (∀ i, i < 8 → i ≠ index % 8 →
      jsGet (handleBombClick s index rand).cards (index / 8 * 8 + i)
        = getRandomSymbol (rand i)) ∧
    (∀ j, j < 64 → (j / 8 = index / 8 ∨ j % 8 = index % 8) →
      ∃ x, x ∈ symbols ∧ jsGet (handleBombClick s index rand).cards j = some x) ∧
    (∀ j, j / 8 ≠ index / 8 → j % 8 ≠ index % 8 →
      jsGet (handleBombClick s index rand).cards j = jsGet s.cards j) ∧
    (handleBombClick s index rand).bombIndex = none ∧
    (handleBombClick s index rand).flippedCards = [] ∧
    (handleBombClick s index rand).score = s.score ∧
    (handleBombClick s index rand).moves = s.moves ∧
    (handleBombClick s index rand).timer = s.timer ∧
    (handleBombClick s index rand).level = s.level ∧
    (handleBombClick s index rand).allLevelResults = s.allLevelResults ∧
    (handleBombClick s index rand).sliderValue = s.sliderValue ∧
    (handleBombClick s index rand).starAvailable = s.starAvailable ∧
    (handleBombClick s index rand).nextLevel = s.nextLevel := by
  have hcards : (handleBombClick s index rand).cards
      = clearCol (clearRow s.cards (index / 8) rand) (index % 8) rand := by
    simp only [handleBombClick, GRID_SIZE]
  have hget : ∀ j, jsGet (handleBombClick s index rand).cards j =
      if index % 8 ≤ j ∧ (j - index % 8) % 8 = 0 ∧ (j - index % 8) / 8 < 8 then
        getRandomSymbol (rand (8 + (j - index % 8) / 8))
      else if index / 8 * 8 ≤ j ∧ j < index / 8 * 8 + 8 then
        getRandomSymbol (rand (j - index / 8 * 8))
      else jsGet s.cards j := by
    intro j
    rw [hcards, jsGet_clearCol, jsGet_clearRow]
  have hcol : ∀ i, i < 8 →
      jsGet (handleBombClick s index rand).cards (i * 8 + index % 8)
        = getRandomSymbol (rand (8 + i)) := by
    intro i hi
    rw [hget, if_pos (by omega)]
    exact congrArg (fun k => getRandomSymbol (rand (8 + k))) (by omega)
  have hrow : ∀ i, i < 8 → i ≠ index % 8 →
      jsGet (handleBombClick s index rand).cards (index / 8 * 8 + i)
        = getRandomSymbol (rand i) := by
    intro i hi hne
    rw [hget, if_neg (by omega), if_pos (by omega)]
    exact congrArg (fun k => getRandomSymbol (rand k)) (by omega)
  refine ⟨?_, hcol, hrow, ?_, ?_, ?_⟩
  rotate_left 3
  · simp only [handleBombClick, and_self]
  · rw [hcards, length_clearCol, length_clearRow, hlen]
    · omega
    · rw [length_clearRow] <;> omega
  · intro j hj hrc
    by_cases hc : j % 8 = index % 8
    · have hj2 : j = j / 8 * 8 + index % 8 := by omega
      rw [hj2, hcol (j / 8) (by omega)]
      exact getRandomSymbol_mem _ (hr _).1 (hr _).2
    · have hj2 : j = index / 8 * 8 + j % 8 := by omega
      rw [hj2, hrow (j % 8) (by omega) hc]
      exact getRandomSymbol_mem _ (hr _).1 (hr _).2
  · intro j h1 h2
    rw [hget, if_neg (by omega), if_neg (by omega)]

/-- Instance of C8: a bomb click on cell 10 of a uniform board with all draws `1/2`. -/
theorem handleBombClick_spec_witness :
    fiveMatchState.cards.length = 64 ∧ (10 : Nat) < 64 ∧
    (handleBombClick fiveMatchState 10 (fun _ => 1 / 2)).cards.length = 64 ∧
    (handleBombClick fiveMatchState 10 (fun _ => 1 / 2)).flippedCards = [] :=
  have h := handleBombClick_spec fiveMatchState 10 (fun _ => 1 / 2) (by decide) (by decide)
    (by intro k; norm_num)
  ⟨by decide, by decide, h.1, h.2.2.2.2.2.2.1⟩

/-- C9: the end check sets `nextLevel` to true (and shows the alert) when
`score >= 100` or `moves >= 7` or `timer = 0`, and changes nothing otherwise; so from a
state with `nextLevel` false the flag is true afterwards exactly when one of the three
conditions holds. -/
theorem endEffect_spec (s : GameState) :
    ((100 ≤ s.score ∨ 7 ≤ s.moves ∨ s.timer = 0) →
      endEffect s =
        { state := { s with nextLevel := true }, alerts := [Alert.gameOver], timeouts := [] }) ∧
    (¬ (100 ≤ s.score ∨ 7 ≤ s.moves ∨ s.timer = 0) →
      endEffect s = { state := s, alerts := [], timeouts := [] }) ∧
    (s.nextLevel = false →
      ((endEffect s).state.nextLevel = true ↔ (100 ≤ s.score ∨ 7 ≤ s.moves ∨ s.timer = 0))) := by
  refine ⟨?_, ?_, ?_⟩
  · intro h
    simp only [endEffect, TARGET_SCORE, MAX_MOVES, if_pos h]
  · intro h
    simp only [endEffect, TARGET_SCORE, MAX_MOVES, if_neg h]
  · intro hf
    by_cases h : 100 ≤ s.score ∨ 7 ≤ s.moves ∨ s.timer = 0
    · simp only [endEffect, TARGET_SCORE, MAX_MOVES, if_pos h]
      exact ⟨fun _ => h, fun _ => trivial⟩
    · simp only [endEffect, TARGET_SCORE, MAX_MOVES, if_neg h, hf]
      exact ⟨fun hh => Bool.noConfusion hh, fun hh => absurd hh h⟩

/-- Instance of C9: with seven moves made the check raises `nextLevel`; in the initial
state it does nothing. -/
theorem endEffect_spec_witness :
    (endEffect movesExhaustedState).state.nextLevel = true ∧
    endEffect initialState = { state := initialState, alerts := [], timeouts := [] } :=
  ⟨((endEffect_spec movesExhaustedState).2.2 rfl).mpr (by decide),
   (endEffect_spec initialState).2.1 (by decide)⟩

/-- C10 (counterexample): after the end check has run once with the move budget used
up, `nextLevel` is already true and an end condition holds, yet running the check
again shows the 'Game over' alert again. -/
theorem endEffect_alert_repeats :
    (endEffect movesExhaustedState).state.nextLevel = true ∧
    7 ≤ (endEffect movesExhaustedState).state.moves ∧
    (endEffect (endEffect movesExhaustedState).state).alerts = [Alert.gameOver] := by
  decide

/-- C10 (amended): for every state in which `nextLevel` is already true and an end
condition holds, running the end check again leaves the state unchanged and shows the
'Game over' alert exactly once more. -/
theorem endEffect_state_idempotent (s : GameState) (hdone : s.nextLevel = true)
    (hend : 100 ≤ s.score ∨ 7 ≤ s.moves ∨ s.timer = 0) :
    (endEffect s).state = s ∧ (endEffect s).alerts = [Alert.gameOver] := by
  simp only [endEffect, TARGET_SCORE, MAX_MOVES, if_pos hend, and_true]
  rw [← hdone]

/-- Instance of amended C10 on the state reached after the first end check. -/
theorem endEffect_state_idempotent_witness :
    (endEffect movesExhaustedState).state.nextLevel = true ∧
    (endEffect (endEffect movesExhaustedState).state).state = (endEffect movesExhaustedState).state ∧
    (endEffect (endEffect movesExhaustedState).state).alerts = [Alert.gameOver] :=
  ⟨by decide,
   endEffect_state_idempotent (endEffect movesExhaustedState).state (by decide) (by decide)⟩

/-- C11: `handleNextLevel` appends the single record `{level, score}` of the finished
level at the end of the history (earlier records unchanged and in order), raises `level`
by one, sets `score`, `moves` and `sliderValue` to 0, `timer` to `TIME_LIMIT = 120`,
`nextLevel` to false, and installs a newly generated board of 64 cells. -/
theorem handleNextLevel_spec (s : GameState) (rand : Nat → ℚ) :
    (handleNextLevel s rand).allLevelResults
      = s.allLevelResults ++ [{ level := s.level, score := s.score }] ∧
    (handleNextLevel s rand).allLevelResults.take s.allLevelResults.length
      = s.allLevelResults ∧
    (handleNextLevel s rand).level = s.level + 1 ∧
    (handleNextLevel s rand).score = 0 ∧
    (handleNextLevel s rand).moves = 0 ∧
    (handleNextLevel s rand).sliderValue = 0 ∧
    (handleNextLevel s rand).timer = TIME_LIMIT ∧
    TIME_LIMIT = 120 ∧
    (handleNextLevel s rand).nextLevel = false ∧
    (handleNextLevel s rand).cards = generateRandomCards rand ∧
    (handleNextLevel s rand).cards.length = 64 := by
  simp only [handleNextLevel, List.take_left', TIME_LIMIT, true_and, and_true]
  simp [generateRandomCards, GRID_SIZE]

/-- C12 (counterexample): advancing the level from a state with an earned star and a
recorded bomb index leaves `starAvailable` true and `bombIndex` set, which are not
their initial values. -/
theorem handleNextLevel_keeps_star_and_bomb :
    (handleNextLevel starBombState (fun _ => 0)).starAvailable = true ∧
    (handleNextLevel starBombState (fun _ => 0)).bombIndex = some 2 ∧
    (handleNextLevel starBombState (fun _ => 0)).starAvailable ≠ initialState.starAvailable ∧
    (handleNextLevel starBombState (fun _ => 0)).bombIndex ≠ initialState.bombIndex := by
  simp [handleNextLevel, starBombState, initialState]

/-- C12 (amended): `handleNextLevel` resets `score`, `moves`, `timer`, `sliderValue` and
`nextLevel` to their initial values and leaves `starAvailable` and `bombIndex` as they
were. -/
theorem handleNextLevel_partial_reset (s : GameState) (rand : Nat → ℚ) :
    (handleNextLevel s rand).score = initialState.score ∧
    (handleNextLevel s rand).moves = initialState.moves ∧
    (handleNextLevel s rand).timer = initialState.timer ∧
    (handleNextLevel s rand).sliderValue = initialState.sliderValue ∧
    (handleNextLevel s rand).nextLevel = initialState.nextLevel ∧
    initialState.score = 0 ∧ initialState.moves = 0 ∧ initialState.timer = 120 ∧
    initialState.sliderValue = 0 ∧ initialState.nextLevel = false ∧
    (handleNextLevel s rand).starAvailable = s.starAvailable ∧
    (handleNextLevel s rand).bombIndex = s.bombIndex := by
  simp [handleNextLevel, initialState, TIME_LIMIT]

/-- C13: with draws in `[0, 1)`, `handleStarClick` installs a newly generated board of
64 non-bomb symbols, empties the selection, sets `score` to 0 and `starAvailable` to
false, and leaves `moves`, `timer`, `level`, `sliderValue` and the history unchanged. -/
theorem handleStarClick_spec (s : GameState) (rand : Nat → ℚ)
    (hr : ∀ k, 0 ≤ rand k ∧ rand k < 1) :
    (handleStarClick s rand).cards = generateRandomCards rand ∧
    (handleStarClick s rand).cards.length = 64 ∧
    (∀ c ∈ (handleStarClick s rand).cards,
      (∃ x ∈ symbols, c = some x) ∧ c ≠ some Symbol.bomb) ∧
    (handleStarClick s rand).flippedCards = [] ∧
    (handleStarClick s rand).score = 0 ∧
    (handleStarClick s rand).starAvailable = false ∧
    (handleStarClick s rand).moves = s.moves ∧
    (handleStarClick s rand).timer = s.timer ∧
    (handleStarClick s rand).level = s.level ∧
    (handleStarClick s rand).sliderValue = s.sliderValue ∧
    (handleStarClick s rand).allLevelResults = s.allLevelResults := by
  simp only [handleStarClick, true_and, and_true]
  exact ⟨length_generateRandomCards rand, generateRandomCards_cells rand hr⟩

/-- Instance of C13: a star click in `starBombState` with all draws `3/5`. -/
theorem handleStarClick_spec_witness :
    (∀ k : Nat, (0 : ℚ) ≤ (fun _ => 3 / 5 : Nat → ℚ) k ∧ (fun _ => 3 / 5 : Nat → ℚ) k < 1) ∧
    (handleStarClick starBombState (fun _ => 3 / 5)).cards.length = 64 ∧
    (handleStarClick starBombState (fun _ => 3 / 5)).score = 0 ∧
    (handleStarClick starBombState (fun _ => 3 / 5)).starAvailable = false ∧
    (handleStarClick starBombState (fun _ => 3 / 5)).moves = starBombState.moves :=
  have h := handleStarClick_spec starBombState (fun _ => 3 / 5) (by intro k; norm_num)
  ⟨by intro k; norm_num, h.2.1, h.2.2.2.2.1, h.2.2.2.2.2.1, h.2.2.2.2.2.2.1⟩

/-- C14: in a state with `timer >= 0`, one timer tick lowers `timer` by exactly 1 when
`timer > 0`, `score < 100` and `moves < 7`, and otherwise changes nothing; so the tick
changes the timer exactly when none of the end conditions `score >= 100`,
`moves >= 7`, `timer = 0` holds. -/
theorem timerTick_spec (s : GameState) (h : 0 ≤ s.timer) :
    ((0 < s.timer ∧ s.score < 100 ∧ s.moves < 7) →
      timerTick s = { s with timer := s.timer - 1 }) ∧
    (¬ (0 < s.timer ∧ s.score < 100 ∧ s.moves < 7) → timerTick s = s) ∧
    ((timerTick s).timer ≠ s.timer ↔ ¬ (100 ≤ s.score ∨ 7 ≤ s.moves ∨ s.timer = 0)) ∧
    ((100 ≤ s.score ∨ 7 ≤ s.moves ∨ s.timer = 0) → timerTick s = s) := by
  by_cases hc : 0 < s.timer ∧ s.score < 100 ∧ s.moves < 7
  · have ht : timerTick s = { s with timer := s.timer - 1 } := by
      simp only [timerTick, TARGET_SCORE, MAX_MOVES, if_pos hc]
    refine ⟨fun _ => ht, fun hn => absurd hc hn, ?_, ?_⟩
    · rw [ht]
      constructor
      · intro _; omega
      · intro _; simp only []; omega
    · intro hend; omega
  · have ht : timerTick s = s := by
      simp only [timerTick, TARGET_SCORE, MAX_MOVES, if_neg hc]
    refine ⟨fun hp => absurd hp hc, fun _ => ht, ?_, fun _ => ht⟩
    rw [ht]
    constructor
    · intro hne; exact absurd rfl hne
    · intro hn; exfalso; apply hc; omega

/-- Instance of C14: the first tick of a level takes the timer from 120 to 119, and a
tick with the move budget used up changes nothing. -/
theorem timerTick_spec_witness :
    0 ≤ initialState.timer ∧
    timerTick initialState = { initialState with timer := initialState.timer - 1 } ∧
    timerTick movesExhaustedState = movesExhaustedState :=
  ⟨by decide,
   (timerTick_spec initialState (by decide)).1 (by decide),
   (timerTick_spec movesExhaustedState (by decide)).2.2.2 (by decide)⟩

/-- C15 (evaluation of the code past the move budget): after board generation and
seven rounds in which four equal cards are flipped, matched and reset, `moves` is 7,
the end check has set `nextLevel` and shown the 'Game over' alert; one more such round
is still accepted and takes `moves` to 8, which exceeds `MAX_MOVES = 7`. -/
theorem moves_exceed_max :
    (run sevenMoveRun).st.moves = 7 ∧
    (run sevenMoveRun).st.nextLevel = true ∧
    Alert.gameOver ∈ (run sevenMoveRun).alerts ∧
    (run eightMoveRun).st.moves = 8 ∧
    ¬ ((run eightMoveRun).st.moves ≤ MAX_MOVES) := by
  have hy0 : (runFrom initialSys [Op.boardEffect (fun _ => 0)]).st.cards
        = List.replicate 64 (some Symbol.circle) ∧
      (runFrom initialSys [Op.boardEffect (fun _ => 0)]).st.flippedCards = [] ∧
      (runFrom initialSys [Op.boardEffect (fun _ => 0)]).pending = [] ∧
      (runFrom initialSys [Op.boardEffect (fun _ => 0)]).st.moves = 0 := by
    simp only [runFrom, List.foldl_cons, List.foldl_nil, step, boardEffect,
      generateRandomCards_zero, initialSys, initialState, and_self]
  have r1 := fourMatchRound_moves _ hy0.1 hy0.2.1 hy0.2.2.1
  have r2 := fourMatchRound_moves _ r1.1 r1.2.1 r1.2.2.1
  have r3 := fourMatchRound_moves _ r2.1 r2.2.1 r2.2.2.1
  have r4 := fourMatchRound_moves _ r3.1 r3.2.1 r3.2.2.1
  have r5 := fourMatchRound_moves _ r4.1 r4.2.1 r4.2.2.1
  have r6 := fourMatchRound_moves _ r5.1 r5.2.1 r5.2.2.1
  have r7 := fourMatchRound_moves _ r6.1 r6.2.1 r6.2.2.1
  have r8 := fourMatchRound_moves _ r7.1 r7.2.1 r7.2.2.1
  have g7 := fourMatchRound_gameOver _ r6.1 r6.2.1 r6.2.2.1 (by
    rw [r6.2.2.2, r5.2.2.2, r4.2.2.2, r3.2.2.2, r2.2.2.2, r1.2.2.2, hy0.2.2.2]
    norm_num)
  have h7 : (run sevenMoveRun).st.moves = 7 := by
    simp only [run, sevenMoveRun, runFrom_append]
    rw [r7.2.2.2, r6.2.2.2, r5.2.2.2, r4.2.2.2, r3.2.2.2, r2.2.2.2, r1.2.2.2, hy0.2.2.2]
    norm_num
  have h8 : (run eightMoveRun).st.moves = 8 := by
    simp only [run, eightMoveRun, sevenMoveRun, runFrom_append]
    rw [r8.2.2.2, r7.2.2.2, r6.2.2.2, r5.2.2.2, r4.2.2.2, r3.2.2.2, r2.2.2.2, r1.2.2.2,
      hy0.2.2.2]
    norm_num
  refine ⟨h7, ?_, ?_, h8, ?_⟩
  · simp only [run, sevenMoveRun, runFrom_append]
    exact g7.1
  · simp only [run, sevenMoveRun, runFrom_append]
    exact g7.2
  · rw [h8]
    decide

/-- C16 (counterexample): after the run that places the bomb, cell 2 holds the bomb
marker and `bombIndex` is 2; once the first scheduled reset has fired, and likewise
once all four scheduled resets (that of the bomb-placing pass included) have fired,
cell 2 holds `'⚪'` and no cell holds the bomb marker, while `bombIndex` is still 2 and
`handleBombClick` has never been invoked. -/
theorem bomb_wiped_by_settle :
    (run bombPlacedRun).st.bombIndex = some 2 ∧
    jsGet (run bombPlacedRun).st.cards 2 = some Symbol.bomb ∧
    (run bombPlacedRun).pending.length = 4 ∧
    (run (bombPlacedRun ++ [settle])).st.bombIndex = some 2 ∧
    jsGet (run (bombPlacedRun ++ [settle])).st.cards 2 = some Symbol.circle ∧
    some Symbol.bomb ∉ (run (bombPlacedRun ++ [settle])).st.cards ∧
    (run (bombPlacedRun ++ [settle, settle, settle, settle])).st.bombIndex = some 2 ∧
    jsGet (run (bombPlacedRun ++ [settle, settle, settle, settle])).st.cards 2
      = some Symbol.circle ∧
    some Symbol.bomb ∉ (run (bombPlacedRun ++ [settle, settle, settle, settle])).st.cards ∧
    (run (bombPlacedRun ++ [settle, settle, settle, settle])).pending = [] := by
  simp only [run, runFrom, bombPlacedRun, settle, List.foldl_cons, List.foldl_nil, step,
    boardEffect, generateRandomCards_zero, initialSys, initialState, List.cons_append,
    List.nil_append]
  simp [flipCard, matchEffect, matchCount, selectedSymbols, jsGet, boosterStep, bombStep,
    randomPick_half_inv, endEffect, applyEffect, TARGET_SCORE, MAX_MOVES, TIME_LIMIT,
    fireDeferred, resetCells, getRandomSymbol_zero, jsSet]

/-- C16 (amended): the bomb marker is transient.  When `matchCount` is at least 5, the
selected indices address board cells holding symbols and the draws lie in `[0, 1)`,
the match-check effect writes the bomb marker at a selected index, records it in
`bombIndex` and schedules the reset of the captured board and selection; when that
reset fires, in whatever state, the bomb cell is regenerated with a non-bomb symbol like
every other selected cell, and the reset leaves `bombIndex` as it found it. -/
theorem bomb_regenerated_at_settle (s : GameState) (r : ℚ) (atFire : GameState)
    (rand : Nat → ℚ)
    (hmc : 5 ≤ matchCount s.cards s.flippedCards)
    (hsel : ∀ i ∈ s.flippedCards, ∃ x, jsGet s.cards i = some x)
    (h0 : 0 ≤ r) (h1 : r < 1) (hr : ∀ k, 0 ≤ rand k ∧ rand k < 1) :
    ∃ b, b ∈ s.flippedCards ∧
      (matchEffect s r).state.bombIndex = some b ∧
      jsGet (matchEffect s r).state.cards b = some Symbol.bomb ∧
      (matchEffect s r).timeouts = [Deferred.resetMatched s.cards s.flippedCards] ∧
      (∃ x, x ∈ symbols ∧ x ≠ Symbol.bomb ∧
        jsGet (fireDeferred (Deferred.resetMatched s.cards s.flippedCards) atFire rand).cards b
          = some x) ∧
      (fireDeferred (Deferred.resetMatched s.cards s.flippedCards) atFire rand).bombIndex
        = atFire.bombIndex := by
  obtain ⟨b, hb, h2, _, h4, _⟩ := matchEffect_bomb_placed s r hmc hsel h0 h1
  refine ⟨b, hb, h2, h4, matchEffect_timeouts_of_match s r (by omega), ?_,
    resetMatched_bombIndex _ _ _ _⟩
  obtain ⟨m, _, _, hval⟩ := jsGet_resetCells_of_mem rand s.flippedCards b s.cards 0 hb
  obtain ⟨x, hx, hx2⟩ := getRandomSymbol_mem _ (hr (0 + m)).1 (hr (0 + m)).2
  refine ⟨x, hx, fun hbomb => bomb_not_mem_symbols (hbomb ▸ hx), ?_⟩
  simp only [fireDeferred]
  rw [hval, hx2]

/-- Instance of amended C16: the five-card match of `fiveMatchState` with bomb draw `1/2`,
its reset fired in the state the effect left, with all draws `0`. -/
theorem bomb_regenerated_at_settle_witness :
    5 ≤ matchCount fiveMatchState.cards fiveMatchState.flippedCards ∧
    (∀ i ∈ fiveMatchState.flippedCards, ∃ x, jsGet fiveMatchState.cards i = some x) ∧
    ∃ b, b ∈ fiveMatchState.flippedCards ∧
      (matchEffect fiveMatchState (1 / 2)).state.bombIndex = some b ∧
      jsGet (matchEffect fiveMatchState (1 / 2)).state.cards b = some Symbol.bomb ∧
      (matchEffect fiveMatchState (1 / 2)).timeouts
        = [Deferred.resetMatched fiveMatchState.cards fiveMatchState.flippedCards] ∧
      (∃ x, x ∈ symbols ∧ x ≠ Symbol.bomb ∧
        jsGet (fireDeferred
            (Deferred.resetMatched fiveMatchState.cards fiveMatchState.flippedCards)
            (matchEffect fiveMatchState (1 / 2)).state (fun _ => 0)).cards b = some x) ∧
      (fireDeferred (Deferred.resetMatched fiveMatchState.cards fiveMatchState.flippedCards)
          (matchEffect fiveMatchState (1 / 2)).state (fun _ => 0)).bombIndex
        = (matchEffect fiveMatchState (1 / 2)).state.bombIndex :=
  ⟨by decide, fiveMatchState_selected,
   bomb_regenerated_at_settle fiveMatchState (1 / 2) (matchEffect fiveMatchState (1 / 2)).state
     (fun _ => 0) (by decide) fiveMatchState_selected (by norm_num) (by norm_num)
     (by intro k; norm_num)⟩

/-- C17 (counterexample): on a 64-cell board with an empty selection, `flipCard(64)`
is not rejected: the out-of-bounds index 64 becomes the selection. -/
theorem flipCard_out_of_bounds_accepted :
    movesExhaustedState.cards.length = 64 ∧
    (flipCard movesExhaustedState 64).flippedCards = [64] ∧
    (flipCard movesExhaustedState 64).flippedCards ≠ movesExhaustedState.flippedCards := by
  decide

/-- C17 (amended): `flipCard` makes no bounds check; for an index of 64 or more it
leaves the state unchanged exactly when the selection already has five elements or
already contains the index, otherwise it appends the index; in both cases every state
variable other than the selection is unchanged, and on a 64-cell board the index reads
`undefined`. -/
theorem flipCard_out_of_bounds (s : GameState) (index : Nat) (hout : 64 ≤ index) :
    (flipCard s index = s ↔ (5 ≤ s.flippedCards.length ∨ index ∈ s.flippedCards)) ∧
    ((s.flippedCards.length < 5 ∧ index ∉ s.flippedCards) →
      (flipCard s index).flippedCards = s.flippedCards ++ [index]) ∧
    { flipCard s index with flippedCards := s.flippedCards } = s ∧
    (s.cards.length = 64 → jsGet s.cards index = none) := by
  have hnone : s.cards.length = 64 → jsGet s.cards index = none := by
    intro hlen
    simp only [jsGet, List.getD_eq_getElem?_getD]
    rw [List.getElem?_eq_none (by omega)]
    rfl
  by_cases hc : s.flippedCards.length < 5 ∧ index ∉ s.flippedCards
  · have hf : flipCard s index = { s with flippedCards := s.flippedCards ++ [index] } := by
      simp only [flipCard, if_pos hc]
    refine ⟨?_, fun _ => by rw [hf], by rw [hf], hnone⟩
    constructor
    · intro heq
      rw [hf] at heq
      have hl := congrArg (fun t => t.flippedCards.length) heq
      simp at hl
    · intro hor
      rcases hor with h5 | hmem
      · omega
      · exact absurd hmem hc.2
  · have hf : flipCard s index = s := by simp only [flipCard, if_neg hc]
    refine ⟨⟨fun _ => ?_, fun _ => hf⟩, fun hp => absurd hp hc, by rw [hf], hnone⟩
    by_cases h5 : 5 ≤ s.flippedCards.length
    · exact Or.inl h5
    · right
      by_contra hmem
      exact hc ⟨by omega, hmem⟩

/-- Instance of amended C17: index 70 is appended to the selection `[64]`, and a second
`flipCard(70)` changes nothing. -/
theorem flipCard_out_of_bounds_witness :
    (64 : Nat) ≤ 70 ∧
    (flipCard (flipCard movesExhaustedState 64) 70).flippedCards = [64] ++ [70] ∧
    flipCard (flipCard (flipCard movesExhaustedState 64) 70) 70
      = flipCard (flipCard movesExhaustedState 64) 70 :=
  ⟨by decide,
   (flipCard_out_of_bounds (flipCard movesExhaustedState 64) 70 (by decide)).2.1 (by decide),
   (flipCard_out_of_bounds (flipCard (flipCard movesExhaustedState 64) 70) 70 (by decide)).1.mpr
     (by decide)⟩

/-- C18: on a 64-cell board with a selection of in-range indices and `matchCount >= 3`,
the match-check effect schedules a reset that captures the current board and
selection; when it fires (in whatever state, with draws in `[0, 1)`), the resulting
board still has 64 cells, every originally selected cell holds the non-bomb symbol
generated for it by the callback, every non-selected cell equals the captured board,
and the selection is empty. -/
theorem resetMatched_spec (s : GameState) (r : ℚ) (atFire : GameState) (rand : Nat → ℚ)
    (hlen : s.cards.length = 64) (hin : ∀ i ∈ s.flippedCards, i < 64)
    (hmc : 3 ≤ matchCount s.cards s.flippedCards)
    (hr : ∀ k, 0 ≤ rand k ∧ rand k < 1) :
    (matchEffect s r).timeouts = [Deferred.resetMatched s.cards s.flippedCards] ∧
    (fireDeferred (Deferred.resetMatched s.cards s.flippedCards) atFire rand).cards.length
      = 64 ∧
    (∀ i ∈ s.flippedCards, ∃ m, m < s.flippedCards.length ∧ s.flippedCards[m]? = some i ∧
      jsGet (fireDeferred (Deferred.resetMatched s.cards s.flippedCards) atFire rand).cards i
        = getRandomSymbol (rand m)) ∧
    (∀ i ∈ s.flippedCards, ∃ x, x ∈ symbols ∧
      jsGet (fireDeferred (Deferred.resetMatched s.cards s.flippedCards) atFire rand).cards i
        = some x) ∧
    (∀ j, j ∉ s.flippedCards →
      jsGet (fireDeferred (Deferred.resetMatched s.cards s.flippedCards) atFire rand).cards j
        = jsGet s.cards j) ∧
    (fireDeferred (Deferred.resetMatched s.cards s.flippedCards) atFire rand).flippedCards
      = [] := by
  have hcards : (fireDeferred (Deferred.resetMatched s.cards s.flippedCards) atFire rand).cards
      = resetCells s.cards rand s.flippedCards 0 := by
    simp only [fireDeferred]
  have hfresh : ∀ i ∈ s.flippedCards, ∃ m, m < s.flippedCards.length ∧
      s.flippedCards[m]? = some i ∧
      jsGet (resetCells s.cards rand s.flippedCards 0) i = getRandomSymbol (rand m) := by
    intro i hi
    obtain ⟨m, hm, hget, hval⟩ := jsGet_resetCells_of_mem rand s.flippedCards i s.cards 0 hi
    exact ⟨m, hm, hget, by rw [hval, Nat.zero_add]⟩
  rw [hcards]
  refine ⟨matchEffect_timeouts_of_match s r hmc, ?_, hfresh, ?_, ?_, ?_⟩
  · rw [length_resetCells, hlen]
    intro i hi
    rw [hlen]
    exact hin i hi
  · intro i hi
    obtain ⟨m, _, _, hval⟩ := hfresh i hi
    rw [hval]
    exact getRandomSymbol_mem _ (hr m).1 (hr m).2
  · intro j hj
    exact jsGet_resetCells_of_not_mem rand s.flippedCards j s.cards 0 hj
  · simp only [fireDeferred]

/-- Instance of C18: the reset scheduled for `threeMatchState`, fired with all draws
`3/5`. -/
theorem resetMatched_spec_witness :
    threeMatchState.cards.length = 64 ∧
    (∀ i ∈ threeMatchState.flippedCards, i < 64) ∧
    3 ≤ matchCount threeMatchState.cards threeMatchState.flippedCards ∧
    (fireDeferred (Deferred.resetMatched threeMatchState.cards threeMatchState.flippedCards)
      threeMatchState (fun _ => 3 / 5)).cards.length = 64 ∧
    (fireDeferred (Deferred.resetMatched threeMatchState.cards threeMatchState.flippedCards)
      threeMatchState (fun _ => 3 / 5)).flippedCards = [] :=
  have h := resetMatched_spec threeMatchState 0 threeMatchState (fun _ => 3 / 5)
    (by decide) (by decide) (by decide) (by intro k; norm_num)
  ⟨by decide, by decide, by decide, h.2.1, h.2.2.2.2.2⟩

/-- C19: in every state reached after the initial board generation by any sequence of
events with board indices below 64 and draws in `[0, 1)`, the board has exactly 64
cells and every cell holds one of the five generator symbols or the bomb marker; and
when the scheduled reset of a resolution pass fires, none of that pass's selected cells
holds the bomb marker afterwards. -/
theorem board_invariant (rand0 : Nat → ℚ) (ops : List Op) (h0 : Draws rand0)
    (hops : ∀ op ∈ ops, OpOk op) :
    (run (Op.boardEffect rand0 :: ops)).st.cards.length = 64 ∧
    (∀ j, j < 64 → ∃ x, jsGet (run (Op.boardEffect rand0 :: ops)).st.cards j = some x ∧
      (x ∈ symbols ∨ x = Symbol.bomb)) ∧
    (∀ (c : List Cell) (f : List Nat) (rest : List Deferred) (rand : Nat → ℚ),
      (run (Op.boardEffect rand0 :: ops)).pending = Deferred.resetMatched c f :: rest →
      Draws rand →
      ∀ i ∈ f, ∃ x, x ∈ symbols ∧ x ≠ Symbol.bomb ∧
        jsGet (step (run (Op.boardEffect rand0 :: ops)) (Op.timeout rand)).st.cards i
          = some x) := by
  have hrun : run (Op.boardEffect rand0 :: ops)
      = runFrom (step initialSys (Op.boardEffect rand0)) ops := by
    simp only [run, runFrom, List.foldl_cons]
  have hok := runFrom_sysOk ops _ hops (initialSys_board_sysOk rand0 h0)
  rw [hrun]
  generalize runFrom (step initialSys (Op.boardEffect rand0)) ops = y at hok ⊢
  refine ⟨hok.1.1, ?_, ?_⟩
  · intro j hj
    obtain ⟨x, hx⟩ := hok.1.2 j hj
    exact ⟨x, hx, symbol_cases x⟩
  · intro c f rest rand hpend hr i hi
    obtain ⟨m, _, _, hval⟩ := jsGet_resetCells_of_mem rand f i c 0 hi
    obtain ⟨x, hx, hx2⟩ := getRandomSymbol_mem _ (hr (0 + m)).1 (hr (0 + m)).2
    refine ⟨x, hx, fun hb => bomb_not_mem_symbols (hb ▸ hx), ?_⟩
    simp only [step, hpend, fireDeferred]
    rw [hval, hx2]

/-- Instance of C19: board generation with draws `0`, three flips and one run of the
match-check effect. -/
theorem board_invariant_witness :
    Draws (fun _ => 0) ∧
    (∀ op ∈ [Op.flipCard 3, Op.flipCard 1, Op.flipCard 2, Op.matchEffect 0], OpOk op) ∧
    (run (Op.boardEffect (fun _ => 0) ::
      [Op.flipCard 3, Op.flipCard 1, Op.flipCard 2, Op.matchEffect 0])).st.cards.length = 64 :=
  have h0 : Draws (fun _ => 0) := by intro k; norm_num
  have hops : ∀ op ∈ [Op.flipCard 3, Op.flipCard 1, Op.flipCard 2, Op.matchEffect 0],
      OpOk op := by
    intro op hop
    simp only [List.mem_cons, List.mem_singleton, List.not_mem_nil, or_false] at hop
    rcases hop with rfl | rfl | rfl | rfl
    · show (3 : Nat) < 64
      decide
    · show (1 : Nat) < 64
      decide
    · show (2 : Nat) < 64
      decide
    · show (0 : ℚ) ≤ 0 ∧ (0 : ℚ) < 1
      norm_num
  ⟨h0, hops, (board_invariant (fun _ => 0) _ h0 hops).1⟩

/-- C20: in every state reached from the initial state by any sequence of events,
`score >= 0`, `0 <= timer <= TIME_LIMIT = 120`, `0 <= sliderValue <= 100` and
`level >= 1`; in particular the timer never becomes negative. -/
theorem range_invariant (ops : List Op) :
    0 ≤ (run ops).st.score ∧
    0 ≤ (run ops).st.timer ∧ (run ops).st.timer ≤ TIME_LIMIT ∧ TIME_LIMIT = 120 ∧
    0 ≤ (run ops).st.sliderValue ∧ (run ops).st.sliderValue ≤ 100 ∧
    1 ≤ (run ops).st.level := by
  obtain ⟨h1, _, h3, h4, h5, h6, h7⟩ := runFrom_rangeOk ops initialSys initialState_rangeOk
  exact ⟨h1, h3, h4, rfl, h5, h6, h7⟩

end MatchGhani
